import Mathlib

/-!
Verification development for the SWF modification engine in
`src-tauri/src/swf.rs`.  The data model (`Movie`, `Tag`, `Shape`, ...) and the
operations (`removeSwfElements`, `applyTagModification`, `applyTransparency`,
`replaceShapeInMovie`, `findNextAvailableId`, `calculateShapeBounds`,
`parseShapeSource`, `opacityToAlpha`) are shallow embeddings of the Rust
source.  Machine integers (`u16`, `i32`) are modelled as `Nat`/`Int`; where an
overflow is semantically relevant (the `max_id + 1` ID allocation on `u16`) the
wrap is written explicitly as `% 65536`.  `f32`/`f64` coordinate arithmetic is
modelled over `ℚ` with the Rust `as i32` / `as u8` casts rendered as explicit
truncation toward zero; payloads that no modelled operation ever inspects
(matrices, colour transforms, button/text records, morph shapes, raw byte
vectors) are carried as atomic values.
-/

namespace StarDelta

/-- Fixed-point coordinate pair (`swf_types::Vector2D`, `i32` fields). -/
structure Vector2D where
  x : Int
  y : Int
deriving DecidableEq, Repr

/-- Axis-aligned rectangle (`swf_types::Rect`, `i32` fields). -/
structure Rect where
  xMin : Int
  xMax : Int
  yMin : Int
  yMax : Int
deriving DecidableEq, Repr

/-- Opaque RGB colour (`swf_types::SRgb8`). -/
structure SRgb8 where
  r : Nat
  g : Nat
  b : Nat
deriving DecidableEq, Repr

/-- RGBA colour with straight alpha (`swf_types::StraightSRgba8`). -/
structure StraightSRgba8 where
  r : Nat
  g : Nat
  b : Nat
  a : Nat
deriving DecidableEq, Repr

/-- Line cap style (`swf_types::CapStyle`). -/
inductive CapStyle where
  | round
  | flat
  | square
deriving DecidableEq, Repr

/-- Line join style (`swf_types::JoinStyle`); the miter limit payload is not
used by the modelled code and is elided. -/
inductive JoinStyle where
  | round
  | bevel
  | miter
deriving DecidableEq, Repr

/-- Fill style.  The source only ever constructs and inspects solid fills
(`FillStyle::Solid`); every operation modelled here treats the fill list
generically, so the solid variant suffices for the embedding. -/
inductive FillStyle where
  | solid (color : StraightSRgba8)
deriving DecidableEq, Repr

/-- Line style (`swf_types::LineStyle`). -/
structure LineStyle where
  width : Nat
  startCap : CapStyle
  endCap : CapStyle
  join : JoinStyle
  noHScale : Bool
  noVScale : Bool
  noClose : Bool
  pixelHinting : Bool
  fill : FillStyle
deriving DecidableEq, Repr

/-- Style table of a shape (`swf_types::ShapeStyles`). -/
structure ShapeStyles where
  fill : List FillStyle
  line : List LineStyle
deriving DecidableEq, Repr

/-- Style-change payload of a shape record (`shape_records::StyleChange`). -/
structure StyleChangeR where
  moveTo : Option Vector2D
  leftFill : Option Nat
  rightFill : Option Nat
  lineStyle : Option Nat
  newStyles : Option ShapeStyles
deriving DecidableEq, Repr

/-- Edge payload of a shape record (`shape_records::Edge`); a present
`controlDelta` makes the edge a quadratic curve. -/
structure EdgeR where
  delta : Vector2D
  controlDelta : Option Vector2D
deriving DecidableEq, Repr

/-- One shape record (`swf_types::ShapeRecord`). -/
inductive ShapeRecord where
  | styleChange (s : StyleChangeR)
  | edge (e : EdgeR)
deriving DecidableEq, Repr

/-- A vector outline (`swf_types::Shape`). -/
structure Shape where
  initialStyles : ShapeStyles
  records : List ShapeRecord
deriving DecidableEq, Repr

/-- Matrix payload of a placement; never inspected by the modelled code, so it
is carried atomically. -/
structure MatrixM where
  v : Int
deriving DecidableEq, Repr

/-- Colour-transform payload; never inspected by the modelled code. -/
structure ColorTransformM where
  v : Int
deriving DecidableEq, Repr

/-- Named scene entry of a `DefineSceneAndFrameLabelData` tag. -/
structure Scene where
  name : String
  offset : Nat
deriving DecidableEq, Repr

/-- Frame-label entry of a `DefineSceneAndFrameLabelData` tag. -/
structure LabelEntry where
  name : String
  frame : Nat
deriving DecidableEq, Repr

/-- Symbol binding of a `SymbolClass` tag (`swf_types::NamedId`). -/
structure NamedId where
  id : Nat
  name : String
deriving DecidableEq, Repr

/-- The `DefineShape` tag payload (`swf_types::tags::DefineShape`). -/
structure DefineShapeT where
  id : Nat
  bounds : Rect
  edgeBounds : Option Rect
  hasFillWinding : Bool
  hasNonScalingStrokes : Bool
  hasScalingStrokes : Bool
  shape : Shape
deriving DecidableEq, Repr

/-- The `DefineDynamicText` tag payload; only the fields the modelled code
reads or writes (`id`, `text`) are kept. -/
structure DefineDynamicTextT where
  id : Nat
  text : Option String
deriving DecidableEq, Repr

/-- The closed tag variant set, restricted to the kinds the modelled
operations dispatch on.  Button/text record payloads, morph-shape payloads,
action and bytecode payloads are atomic (`List Nat` / `Nat`) because no
modelled operation looks inside them. -/
inductive Tag where
  | defineShape (d : DefineShapeT)
  | defineSprite (id : Nat) (frameCount : Nat) (tags : List Tag)
  | defineText (id : Nat) (records : List Int)
  | defineDynamicText (t : DefineDynamicTextT)
  | defineButton (id : Nat) (records : List Int)
  | defineBitmap (id : Nat) (width : Nat) (height : Nat) (data : List Nat)
  | defineMorphShape (id : Nat) (shape : Int)
  | defineBinaryData (id : Nat) (data : List Nat)
  | defineButtonColorTransform (buttonId : Nat) (transform : ColorTransformM)
  | defineSceneAndFrameLabelData (scenes : List Scene) (labels : List LabelEntry)
  | placeObject (characterId : Option Nat) (depth : Nat) (matrix : Option MatrixM) (colorTransform : Option ColorTransformM)
  | removeObject (depth : Nat) (characterId : Option Nat)
  | frameLabel (name : String)
  | setBackgroundColor (color : SRgb8)
  | symbolClass (symbols : List NamedId)
  | doAbc (data : List Nat)
  | doAction (actions : List Nat)
  | fileAttributes (useAs3 : Bool) (hasMetadata : Bool) (useNetwork : Bool) (useDirectBlit : Bool)

/-- Movie header (`swf_types::Header`); only the fields the modelled code
touches are kept. -/
structure Header where
  swfVersion : Nat
  frameSize : Rect
deriving DecidableEq, Repr

/-- A parsed document (`swf_types::Movie`). -/
structure Movie where
  header : Header
  tags : List Tag

/-- The `remove_elements` patch directive (`RemoveElements` in the source). -/
structure RemoveElements where
  shapes : Option (List Nat)
  sprites : Option (List Nat)
  texts : Option (List Nat)
  buttons : Option (List Nat)
  bitmaps : Option (List Nat)
  frames : Option (List String)
  scenes : Option (List String)
deriving DecidableEq, Repr

/-- The per-kind ID sets built at the top of `remove_swf_elements` (the Rust
`HashSet`s; membership is all that is ever used, so lists suffice). -/
structure RemovalSets where
  shapeIds : List Nat
  spriteIds : List Nat
  textIds : List Nat
  buttonIds : List Nat
  bitmapIds : List Nat
  frameLabels : List String
  sceneNames : List String
deriving DecidableEq, Repr

/-- Builds the removal sets exactly as `remove_swf_elements` does
(`elements.shapes.as_ref().map(...).unwrap_or_default()` etc.). -/
def RemoveElements.toSets (e : RemoveElements) : RemovalSets :=
  { shapeIds := e.shapes.getD []
    spriteIds := e.sprites.getD []
    textIds := e.texts.getD []
    buttonIds := e.buttons.getD []
    bitmapIds := e.bitmaps.getD []
    frameLabels := e.frames.getD []
    sceneNames := e.scenes.getD [] }

/-- The retain predicate of the first pass of `remove_swf_elements` (also used
verbatim on sprite timelines in its final pass): a placement survives iff its
character ID — `character_id.unwrap_or(0)` — is in none of the removal sets,
and a frame label survives iff its name is not removed. -/
def keepRef (s : RemovalSets) : Tag → Bool
  | .placeObject cid _ _ _ =>
      let charId := cid.getD 0
      !(s.shapeIds.contains charId) && !(s.spriteIds.contains charId) &&
        !(s.textIds.contains charId) && !(s.buttonIds.contains charId) &&
        !(s.bitmapIds.contains charId)
  | .frameLabel name => !(s.frameLabels.contains name)
  | _ => true

/-- The retain predicate of the second pass of `remove_swf_elements`:
definition tags with removed IDs are dropped; the scene/frame-label-data tag
is dropped only when scene names are being removed and both its filtered scene
list and its label list are empty. -/
def keepDef (s : RemovalSets) : Tag → Bool
  | .defineShape d => !(s.shapeIds.contains d.id)
  | .defineSprite id _ _ => !(s.spriteIds.contains id)
  | .defineText id _ => !(s.textIds.contains id)
  | .defineDynamicText t => !(s.textIds.contains t.id)
  | .defineButton id _ => !(s.buttonIds.contains id)
  | .defineBitmap id _ _ _ => !(s.bitmapIds.contains id)
  | .defineSceneAndFrameLabelData scs lbls =>
      if s.sceneNames.isEmpty then true
      else
        let filtered := scs.filter (fun sc => !(s.sceneNames.contains sc.name))
        !filtered.isEmpty || !lbls.isEmpty
  | _ => true

/-- The third pass of `remove_swf_elements`: when scene names are removed,
each surviving scene-data tag has the matching scenes filtered out. -/
def updateSceneTag (s : RemovalSets) : Tag → Tag
  | .defineSceneAndFrameLabelData scs lbls =>
      .defineSceneAndFrameLabelData (scs.filter (fun sc => !(s.sceneNames.contains sc.name))) lbls
  | t => t

/-- The final pass of `remove_swf_elements`: each top-level sprite has its own
tag list filtered with the placement/frame-label predicate. -/
def cleanSprite (s : RemovalSets) : Tag → Tag
  | .defineSprite id fc ts => .defineSprite id fc (ts.filter (keepRef s))
  | t => t

/-- The element-removal operation `remove_swf_elements`, pass for pass.  The
Rust function returns `Result` but has no error path, so it is modelled as a
pure function. -/
def removeSwfElements (m : Movie) (e : RemoveElements) : Movie :=
  let s := e.toSets
  let tags1 := m.tags.filter (keepRef s)
  let tags2 := tags1.filter (keepDef s)
  let tags3 := if s.sceneNames.isEmpty then tags2 else tags2.map (updateSceneTag s)
  let tags4 := tags3.map (cleanSprite s)
  { m with tags := tags4 }

/-- A tag directly references a removed element iff the first-pass retain
predicate would drop it. -/
def directRef (s : RemovalSets) (t : Tag) : Bool :=
  !(keepRef s t)

/-- Fuel-bounded search for a reference to a removed element at any sprite
nesting depth (fuel bounds the depth; any fuel at least the nesting depth of
the inspected document gives the exact answer). -/
def refsRemovedDeep (s : RemovalSets) : Nat → Tag → Bool
  | 0, _ => false
  | fuel + 1, .defineSprite _ _ ts => ts.any (refsRemovedDeep s fuel)
  | _ + 1, t => directRef s t

/-- A movie contains a reference to a removed element within the given sprite
nesting depth. -/
def movieRefsDeep (s : RemovalSets) (fuel : Nat) (m : Movie) : Bool :=
  m.tags.any (refsRemovedDeep s fuel)

/-- Combined cleanliness check used by the removal theorems: the tag itself
survives the reference filter, and if it is a sprite then so does every tag
directly on its timeline. -/
def checkClean (s : RemovalSets) (t : Tag) : Bool :=
  keepRef s t &&
    (match t with
     | .defineSprite _ _ ts => ts.all (keepRef s)
     | _ => true)

/-- Truncation toward zero of a rational number: the semantics of Rust
`as i32` on an in-range `f64` value.  Written with `Nat` division on the
absolute value so no ambient integer-division convention is involved. -/
def truncQ (q : ℚ) : Int :=
  Int.sign q.num * ((q.num.natAbs / q.den : Nat) : Int)

/-- Clamp to the unit interval, the semantics of Rust `clamp(0.0, 1.0)`. -/
def clamp01 (q : ℚ) : ℚ :=
  max 0 (min q 1)

/-- The opacity-to-alpha mapping `opacity_to_alpha`:
`(opacity.clamp(0.0, 1.0) * 255.0) as u8`.  The cast operand is clamped to
`[0, 255]` and nonnegative, where the truncating `as u8` cast coincides with
the floor, which is how it is written here. -/
def opacityToAlpha (opacity : ℚ) : Nat :=
  (Int.floor (clamp01 opacity * 255)).toNat

/-- A point of the geometry compiler, `kurbo::Point` (`f64` coordinates,
modelled exactly over `ℚ`). -/
structure PointQ where
  x : ℚ
  y : ℚ
deriving DecidableEq, Repr

/-- The fixed-point scale `SWF_SCALE`: 20 twips per source pixel. -/
def swfScale : ℚ := 20

/-- The delta computation `point_to_vec2d`: both endpoints are scaled and
truncated to `i32` independently and then subtracted. -/
def pointToVec2d (fromP toP : PointQ) : Vector2D :=
  { x := truncQ (toP.x * swfScale) - truncQ (fromP.x * swfScale)
    y := truncQ (toP.y * swfScale) - truncQ (fromP.y * swfScale) }

/-- A parsed 2x3 affine transform (`svgtypes::Transform`). -/
structure TransformQ where
  a : ℚ
  b : ℚ
  c : ℚ
  d : ℚ
  e : ℚ
  f : ℚ
deriving DecidableEq, Repr

/-- The transform application `apply_transform`. -/
def applyTransformP (t : TransformQ) (p : PointQ) : PointQ :=
  { x := t.a * p.x + t.c * p.y + t.e
    y := t.b * p.x + t.d * p.y + t.f }

/-- Applies an optional transform (`path_transform.as_ref().map(...)
.unwrap_or(point)` in the source). -/
def applyOptTransform (t : Option TransformQ) (p : PointQ) : PointQ :=
  match t with
  | some tr => applyTransformP tr p
  | none => p

/-- The transform composition used for every committed point: the path's own
transform first, the enclosing group's transform second. -/
def transformPoint (pt gt : Option TransformQ) (p : PointQ) : PointQ :=
  applyOptTransform gt (applyOptTransform pt p)

/-- The non-arc path commands of `svgtypes::PathSegment`.  The full command
set is `PathCmd` below, which adds the elliptical-arc command; its conversion
evaluates transcendental functions over floats, which are abstracted into an
explicit `RealKernel` parameter (see `processArc`). -/
inductive PathSeg where
  | moveTo (abs : Bool) (x y : ℚ)
  | lineTo (abs : Bool) (x y : ℚ)
  | horizontalLineTo (abs : Bool) (x : ℚ)
  | verticalLineTo (abs : Bool) (y : ℚ)
  | curveTo (abs : Bool) (x1 y1 x2 y2 x y : ℚ)
  | smoothCurveTo (abs : Bool) (x2 y2 x y : ℚ)
  | quadratic (abs : Bool) (x1 y1 x y : ℚ)
  | smoothQuadratic (abs : Bool) (x y : ℚ)
  | closePath
deriving DecidableEq, Repr

/-- The per-path mutable state of the segment loop in `parse_shape_source`:
the accumulated record list of the current shape (shared across paths), the
pen position `current_pos`, and `last_control_point`. -/
structure GeomState where
  records : List ShapeRecord
  pos : PointQ
  lastCtrl : Option PointQ
deriving DecidableEq, Repr

/-- Builds the style-change record emitted by a move-to command. -/
def moveToRecord (tp : PointQ) : ShapeRecord :=
  ShapeRecord.styleChange
    { moveTo := some { x := truncQ (tp.x * swfScale), y := truncQ (tp.y * swfScale) }
      leftFill := none, rightFill := none, lineStyle := none, newStyles := none }

/-- Builds a straight-edge record. -/
def straightEdge (fromP toP : PointQ) : ShapeRecord :=
  ShapeRecord.edge { delta := pointToVec2d fromP toP, controlDelta := none }

/-- Builds a quadratic-curve edge record. -/
def curveEdge (fromP ctrl toP : PointQ) : ShapeRecord :=
  ShapeRecord.edge { delta := pointToVec2d fromP toP, controlDelta := some (pointToVec2d fromP ctrl) }

/-- One iteration of the segment loop of `parse_shape_source`, command per
command.  Relative coordinates are resolved against the (already transformed)
pen position and the result is transformed again, exactly as the source does;
a cubic segment is split into two quadratics at the midpoint of its two
control points; close-path inspects the first record of the accumulated
record list and, when it is a style change carrying a move-to, emits a
straight edge toward the stored (fixed-point) coordinates of that move-to
reinterpreted as a raw point. -/
def processSegment (pt gt : Option TransformQ) (st : GeomState) : PathSeg → GeomState
  | .moveTo ab x y =>
      let p := if ab then PointQ.mk x y else PointQ.mk (st.pos.x + x) (st.pos.y + y)
      let tp := transformPoint pt gt p
      { records := st.records ++ [moveToRecord tp], pos := tp, lastCtrl := none }
  | .lineTo ab x y =>
      let p := if ab then PointQ.mk x y else PointQ.mk (st.pos.x + x) (st.pos.y + y)
      let tp := transformPoint pt gt p
      { records := st.records ++ [straightEdge st.pos tp], pos := tp, lastCtrl := none }
  | .horizontalLineTo ab x =>
      let p := if ab then PointQ.mk x st.pos.y else PointQ.mk (st.pos.x + x) st.pos.y
      let tp := transformPoint pt gt p
      { records := st.records ++ [straightEdge st.pos tp], pos := tp, lastCtrl := none }
  | .verticalLineTo ab y =>
      let p := if ab then PointQ.mk st.pos.x y else PointQ.mk st.pos.x (st.pos.y + y)
      let tp := transformPoint pt gt p
      { records := st.records ++ [straightEdge st.pos tp], pos := tp, lastCtrl := none }
  | .curveTo ab x1 y1 x2 y2 x y =>
      let c1 := if ab then PointQ.mk x1 y1 else PointQ.mk (st.pos.x + x1) (st.pos.y + y1)
      let c2 := if ab then PointQ.mk x2 y2 else PointQ.mk (st.pos.x + x2) (st.pos.y + y2)
      let pe := if ab then PointQ.mk x y else PointQ.mk (st.pos.x + x) (st.pos.y + y)
      let tc1 := transformPoint pt gt c1
      let tc2 := transformPoint pt gt c2
      let te := transformPoint pt gt pe
      let mid := PointQ.mk ((tc1.x + tc2.x) / 2) ((tc1.y + tc2.y) / 2)
      { records := st.records ++ [curveEdge st.pos tc1 mid, curveEdge mid tc2 te]
        pos := te
        lastCtrl := some tc2 }
  | .smoothCurveTo ab x2 y2 x y =>
      let c1 := match st.lastCtrl with
                | some lc => PointQ.mk (2 * st.pos.x - lc.x) (2 * st.pos.y - lc.y)
                | none => st.pos
      let c2 := if ab then PointQ.mk x2 y2 else PointQ.mk (st.pos.x + x2) (st.pos.y + y2)
      let pe := if ab then PointQ.mk x y else PointQ.mk (st.pos.x + x) (st.pos.y + y)
      let tc1 := transformPoint pt gt c1
      let tc2 := transformPoint pt gt c2
      let te := transformPoint pt gt pe
      let mid := PointQ.mk ((tc1.x + tc2.x) / 2) ((tc1.y + tc2.y) / 2)
      { records := st.records ++ [curveEdge st.pos tc1 mid, curveEdge mid tc2 te]
        pos := te
        lastCtrl := some tc2 }
  | .quadratic ab x1 y1 x y =>
      let c := if ab then PointQ.mk x1 y1 else PointQ.mk (st.pos.x + x1) (st.pos.y + y1)
      let pe := if ab then PointQ.mk x y else PointQ.mk (st.pos.x + x) (st.pos.y + y)
      let tc := transformPoint pt gt c
      let te := transformPoint pt gt pe
      { records := st.records ++ [curveEdge st.pos tc te], pos := te, lastCtrl := some tc }
  | .smoothQuadratic ab x y =>
      let c := match st.lastCtrl with
               | some lc => PointQ.mk (2 * st.pos.x - lc.x) (2 * st.pos.y - lc.y)
               | none => st.pos
      let pe := if ab then PointQ.mk x y else PointQ.mk (st.pos.x + x) (st.pos.y + y)
      let tc := transformPoint pt gt c
      let te := transformPoint pt gt pe
      { records := st.records ++ [curveEdge st.pos tc te], pos := te, lastCtrl := some tc }
  | .closePath =>
      match st.records.head? with
      | some (ShapeRecord.styleChange sc) =>
          match sc.moveTo with
          | some mv =>
              let fp : PointQ := { x := (mv.x : ℚ), y := (mv.y : ℚ) }
              { records := st.records ++ [straightEdge st.pos fp], pos := fp, lastCtrl := none }
          | none => { st with lastCtrl := none }
      | _ => { st with lastCtrl := none }

/-- The transcendental functions used by the elliptical-arc conversion
(`f64::sin`, `cos`, `atan2`, `sqrt` and the constant π).  They have no exact
rational semantics, so the embedding abstracts them into this explicit
parameter and every statement about the geometry compiler quantifies over
it; all the rational arithmetic around them is transcribed exactly. -/
structure RealKernel where
  sinQ : ℚ → ℚ
  cosQ : ℚ → ℚ
  atan2Q : ℚ → ℚ → ℚ
  sqrtQ : ℚ → ℚ
  piQ : ℚ

/-- The truncated remainder of Rust `f64 %` (sign follows the dividend). -/
def fmodQ (a b : ℚ) : ℚ :=
  a - (truncQ (a / b) : ℚ) * b

/-- The `EllipticalArc` arm of the segment loop of `parse_shape_source`,
formula for formula: endpoint resolution, the zero-radius degenerate straight
line, the endpoint-to-center conversion, radius scale-up when lambda exceeds
one, sub-arc count `ceil(|delta| * 2 / pi)`, and one quadratic edge per
sub-arc via the tangent-circle control-point formula.  The arm never assigns
`last_control_point`, so the previous control point survives an arc (both in
the degenerate branch, which `continue`s, and in the general branch).  The
division `delta_angle / n_curves` is division by zero when the angle sweep is
exactly zero; there the `f64` code produces NaNs while `ℚ` division yields 0
— a corner with no claim riding on it. -/
def processArc (K : RealKernel) (pt gt : Option TransformQ) (st : GeomState)
    (ab : Bool) (rx0 ry0 xrot : ℚ) (largeArc sweep : Bool) (x y : ℚ) : GeomState :=
  let endPoint := if ab then PointQ.mk x y else PointQ.mk (st.pos.x + x) (st.pos.y + y)
  if rx0 = 0 ∨ ry0 = 0 then
    let te := transformPoint pt gt endPoint
    { records := st.records ++ [straightEdge st.pos te], pos := te, lastCtrl := st.lastCtrl }
  else
    let rx := |rx0|
    let ry := |ry0|
    let phi := xrot * K.piQ / 180
    let dx := (st.pos.x - endPoint.x) / 2
    let dy := (st.pos.y - endPoint.y) / 2
    let cosPhi := K.cosQ phi
    let sinPhi := K.sinQ phi
    let x1 := cosPhi * dx + sinPhi * dy
    let y1 := -sinPhi * dx + cosPhi * dy
    let lambda := x1 * x1 / (rx * rx) + y1 * y1 / (ry * ry)
    let rx := if lambda > 1 then rx * K.sqrtQ lambda else rx
    let ry := if lambda > 1 then ry * K.sqrtQ lambda else ry
    let sign : ℚ := if largeArc = sweep then -1 else 1
    let sq := ((rx * rx * (ry * ry)) - (rx * rx * (y1 * y1)) - (ry * ry * (x1 * x1))) /
              ((rx * rx * (y1 * y1)) + (ry * ry * (x1 * x1)))
    let sq := if sq < 0 then 0 else sq
    let coef := sign * K.sqrtQ sq
    let cx1 := coef * (rx * y1 / ry)
    let cy1 := coef * -(ry * x1 / rx)
    let cx := cosPhi * cx1 - sinPhi * cy1 + (st.pos.x + endPoint.x) / 2
    let cy := sinPhi * cx1 + cosPhi * cy1 + (st.pos.y + endPoint.y) / 2
    let startAngle := K.atan2Q ((y1 - cy1) / ry) ((x1 - cx1) / rx)
    let deltaAngle0 := fmodQ (K.atan2Q ((-y1 - cy1) / ry) ((-x1 - cx1) / rx) - startAngle)
      (2 * K.piQ)
    let deltaAngle1 :=
      if sweep = false ∧ deltaAngle0 > 0 then deltaAngle0 - 2 * K.piQ
      else if sweep = true ∧ deltaAngle0 < 0 then deltaAngle0 + 2 * K.piQ
      else deltaAngle0
    let nCurves : Int := Int.ceil (|deltaAngle1| * 2 / K.piQ)
    let deltaAngle := deltaAngle1 / (nCurves : ℚ)
    let step := fun (acc : GeomState) (i : Nat) =>
      let angle := startAngle + (i : ℚ) * deltaAngle
      let nextAngle := angle + deltaAngle
      let alpha := K.sinQ deltaAngle * (K.cosQ deltaAngle - 1) / K.cosQ deltaAngle
      let p0 := PointQ.mk
        (cx + (K.cosQ angle * rx * cosPhi - K.sinQ angle * ry * sinPhi))
        (cy + (K.cosQ angle * rx * sinPhi + K.sinQ angle * ry * cosPhi))
      let p3 := PointQ.mk
        (cx + (K.cosQ nextAngle * rx * cosPhi - K.sinQ nextAngle * ry * sinPhi))
        (cy + (K.cosQ nextAngle * rx * sinPhi + K.sinQ nextAngle * ry * cosPhi))
      let control := PointQ.mk
        (p0.x + alpha * (-(K.sinQ angle) * rx * cosPhi - K.cosQ angle * ry * sinPhi))
        (p0.y + alpha * (-(K.sinQ angle) * rx * sinPhi + K.cosQ angle * ry * cosPhi))
      let tControl := transformPoint pt gt control
      let tp3 := transformPoint pt gt p3
      { records := acc.records ++ [curveEdge acc.pos tControl tp3]
        pos := tp3
        lastCtrl := acc.lastCtrl }
    (List.range nCurves.toNat).foldl step st

/-- The full path-command set of `svgtypes::PathSegment`: the nine non-arc
commands plus the elliptical arc. -/
inductive PathCmd where
  | basic (s : PathSeg)
  | ellipticalArc (abs : Bool) (rx ry xAxisRotation : ℚ) (largeArc sweep : Bool) (x y : ℚ)

/-- One iteration of the segment loop of `parse_shape_source` over the full
command set: the non-arc commands are handled by `processSegment`, the
elliptical arc by `processArc` with the transcendental kernel. -/
def processCmd (K : RealKernel) (pt gt : Option TransformQ) (st : GeomState) : PathCmd → GeomState
  | .basic s => processSegment pt gt st s
  | .ellipticalArc ab rx ry xrot la sw x y => processArc K pt gt st ab rx ry xrot la sw x y

/-- An already tokenised path element of the source vector document: the XML
and attribute-string parsing layer of `parse_shape_source` is abstracted to
its result (transforms, colours, opacities, stroke width, and the parsed
command list; `data = none` models a path element without a `d` attribute,
which contributes nothing, not even style records). -/
structure PathElem where
  pathTransform : Option TransformQ
  groupTransform : Option TransformQ
  fillColor : Option SRgb8
  fillOpacity : ℚ
  strokeColor : Option SRgb8
  strokeWidth : ℚ
  strokeOpacity : ℚ
  data : Option (List PathCmd)

/-- The cross-path accumulator of `parse_shape_source`: the single shape's
record list plus the running fill/line style-table indices. -/
structure AccState where
  records : List ShapeRecord
  fillIdx : Nat
  lineIdx : Nat
deriving DecidableEq, Repr

/-- Saturating `u16` cast of the scaled stroke width
(`(stroke_width * SWF_SCALE) as u16`). -/
def strokeWidthU16 (w : ℚ) : Nat :=
  (min (max (truncQ (w * swfScale)) 0) 65535).toNat

/-- Processing of one path element of the source document: append the
style-defining record when a fill or stroke is present (bumping the running
style indices), then run the segment loop starting from pen position (0,0)
with no previous control point, all records accumulating into the single
shared shape. -/
def processPath (K : RealKernel) (st : AccState) (p : PathElem) : AccState :=
  match p.data with
  | none => st
  | some segs =>
      let newFill : List FillStyle :=
        match p.fillColor with
        | some c => [FillStyle.solid { r := c.r, g := c.g, b := c.b, a := opacityToAlpha p.fillOpacity }]
        | none => []
      let fillIdx := match p.fillColor with
                     | some _ => st.fillIdx + 1
                     | none => st.fillIdx
      let newLine : List LineStyle :=
        match p.strokeColor with
        | some c => [{ width := strokeWidthU16 p.strokeWidth
                       startCap := CapStyle.round, endCap := CapStyle.round, join := JoinStyle.round
                       noHScale := false, noVScale := false, noClose := false, pixelHinting := false
                       fill := FillStyle.solid { r := c.r, g := c.g, b := c.b, a := opacityToAlpha p.strokeOpacity } }]
        | none => []
      let lineIdx := match p.strokeColor with
                     | some _ => st.lineIdx + 1
                     | none => st.lineIdx
      let styleRec : List ShapeRecord :=
        if newFill.isEmpty && newLine.isEmpty then []
        else [ShapeRecord.styleChange
          { moveTo := none
            leftFill := if !newFill.isEmpty then some fillIdx else none
            rightFill := none
            lineStyle := if !newLine.isEmpty then some lineIdx else none
            newStyles := some { fill := newFill, line := newLine } }]
      let st0 : GeomState := { records := st.records ++ styleRec
                               pos := { x := 0, y := 0 }, lastCtrl := none }
      let final := segs.foldl (processCmd K p.pathTransform p.groupTransform) st0
      { records := final.records, fillIdx := fillIdx, lineIdx := lineIdx }

/-- The geometry compiler `parse_shape_source` over the tokenised path list:
all paths accumulate into one shape, which is returned as a singleton list
unless its record list stayed empty; the shape's initial style table is never
populated (styles travel in the style-change records). -/
def parseShapeSource (K : RealKernel) (paths : List PathElem) : List Shape :=
  let acc := paths.foldl (processPath K) { records := [], fillIdx := 0, lineIdx := 0 }
  if acc.records.isEmpty then []
  else [{ initialStyles := { fill := [], line := [] }, records := acc.records }]

/-- Accumulator of `calculate_shape_bounds`: running min/max box plus the pen
position, with the `i32::MAX`/`i32::MIN` sentinels of the source. -/
structure BoundsAcc where
  minX : Int
  maxX : Int
  minY : Int
  maxY : Int
  curX : Int
  curY : Int
deriving DecidableEq, Repr

/-- The `i32::MAX` sentinel. -/
def i32Max : Int := 2147483647

/-- The `i32::MIN` sentinel. -/
def i32Min : Int := -2147483648

/-- One step of the bounds walk: a style change with a move-to resets the pen
and folds it into the box; an edge advances the pen, folds the new pen in,
and, for curves, also folds in the absolute control point
(pen-before-edge + control delta). -/
def boundsStep (acc : BoundsAcc) : ShapeRecord → BoundsAcc
  | .styleChange sc =>
      match sc.moveTo with
      | some mv =>
          { minX := min acc.minX mv.x, maxX := max acc.maxX mv.x
            minY := min acc.minY mv.y, maxY := max acc.maxY mv.y
            curX := mv.x, curY := mv.y }
      | none => acc
  | .edge e =>
      let cx := acc.curX + e.delta.x
      let cy := acc.curY + e.delta.y
      let acc1 : BoundsAcc :=
        { minX := min acc.minX cx, maxX := max acc.maxX cx
          minY := min acc.minY cy, maxY := max acc.maxY cy
          curX := cx, curY := cy }
      match e.controlDelta with
      | some cd =>
          let ctrlX := cx - e.delta.x + cd.x
          let ctrlY := cy - e.delta.y + cd.y
          { acc1 with minX := min acc1.minX ctrlX, maxX := max acc1.maxX ctrlX
                      minY := min acc1.minY ctrlY, maxY := max acc1.maxY ctrlY }
      | none => acc1

/-- The fixed padding margin of the bounds calculator (10 pixels in twips). -/
def boundsPadding : Int := 200

/-- The bounds calculator `calculate_shape_bounds`: walk the records, return
the degenerate zero box when nothing was visited (the min-x sentinel
survived), otherwise pad the accumulated box symmetrically.  The Rust
function returns `Result` but has no error path. -/
def calculateShapeBounds (shape : Shape) : Rect :=
  let acc := shape.records.foldl boundsStep
    { minX := i32Max, maxX := i32Min, minY := i32Max, maxY := i32Min, curX := 0, curY := 0 }
  if acc.minX = i32Max then { xMin := 0, xMax := 0, yMin := 0, yMax := 0 }
  else { xMin := acc.minX - boundsPadding, xMax := acc.maxX + boundsPadding
         yMin := acc.minY - boundsPadding, yMax := acc.maxY + boundsPadding }

/-- The bitmap-fill preservation step of `replace_shape_in_movie`: when the
replacement shape has no fills and the original does, keep the original fill
list and redirect every style-change record to the first fill slot. -/
def replacedShape (orig : DefineShapeT) (newShape : Shape) : Shape :=
  if newShape.initialStyles.fill.isEmpty && !orig.shape.initialStyles.fill.isEmpty then
    { initialStyles := { fill := orig.shape.initialStyles.fill, line := newShape.initialStyles.line }
      records := newShape.records.map (fun r =>
        match r with
        | .styleChange sc => .styleChange { sc with leftFill := some 1, rightFill := none }
        | r => r) }
  else newShape

/-- A tag is a `DefineShape` with the given character ID. -/
def isShapeWithId : Tag → Nat → Bool
  | .defineShape d, sid => d.id == sid
  | _, _ => false

/-- The tag-scan loop of `replace_shape_in_movie`: the first matching shape
tag (when a replacement shape exists) receives the replacement shape and
freshly computed bounds and the scan stops; `none` means the loop fell
through and the caller reports the lookup error. -/
def replaceShapeTags (sid : Nat) (newShapes : List Shape) : List Tag → Option (List Tag)
  | [] => none
  | .defineShape d :: ts =>
      if d.id = sid then
        match newShapes.head? with
        | some ns =>
            let ms := replacedShape d ns
            some (.defineShape { d with shape := ms, bounds := calculateShapeBounds ms } :: ts)
        | none => (replaceShapeTags sid newShapes ts).map (fun ts2 => .defineShape d :: ts2)
      else (replaceShapeTags sid newShapes ts).map (fun ts2 => .defineShape d :: ts2)
  | t :: ts => (replaceShapeTags sid newShapes ts).map (fun ts2 => t :: ts2)

/-- The shape-replacement operation `replace_shape_in_movie`: unlike the
other ID-targeted operations, a missing ID is a reported error. -/
def replaceShapeInMovie (m : Movie) (sid : Nat) (newShapes : List Shape) : Except String Movie :=
  match replaceShapeTags sid newShapes m.tags with
  | some ts => .ok { m with tags := ts }
  | none => .error ("Shape with ID " ++ toString sid ++ " not found")

/-- One step of the ID scan of `find_next_available_id`: only shape, sprite,
static/dynamic text, button, morph-shape and bitmap definitions feed the
maximum. -/
def scanStep (acc : Nat) : Tag → Nat
  | .defineShape d => max acc d.id
  | .defineSprite id _ _ => max acc id
  | .defineText id _ => max acc id
  | .defineDynamicText dt => max acc dt.id
  | .defineButton id _ => max acc id
  | .defineMorphShape id _ => max acc id
  | .defineBitmap id _ _ _ => max acc id
  | _ => acc

/-- The maximum character ID found by the scan of `find_next_available_id`. -/
def maxScannedId (m : Movie) : Nat :=
  m.tags.foldl scanStep 0

/-- The ID allocator `find_next_available_id`.  The source computes
`max_id + 1` on a `u16`; the release-profile wrap-around of that addition is
written explicitly (a debug build would panic instead of wrapping). -/
def findNextAvailableId (m : Movie) : Nat :=
  (maxScannedId m + 1) % 65536

/-- The ID projection of the scan, as a filter: used to relate the source
fold to a max over the scanned definition kinds. -/
def scannedDefId : Tag → Option Nat
  | .defineShape d => some d.id
  | .defineSprite id _ _ => some id
  | .defineText id _ => some id
  | .defineDynamicText dt => some dt.id
  | .defineButton id _ => some id
  | .defineMorphShape id _ => some id
  | .defineBitmap id _ _ _ => some id
  | _ => none

/-- Modelled from the claim wording of C5 ("the maximum character ID in use
over all top-level definition tags"): the maximum over every `Define*` tag
carrying a character ID, which additionally includes binary-data
definitions (`DefineBinaryData` carries a character ID in the data model). -/
def specMaxDefId (m : Movie) : Nat :=
  m.tags.foldl (fun acc t =>
    match t with
    | .defineBinaryData id _ => max acc id
    | t => scanStep acc t) 0

/-- The all-zero solid fill built by `apply_transparency`. -/
def zeroSolidFill : FillStyle :=
  .solid { r := 0, g := 0, b := 0, a := 0 }

/-- The replacement `DefineShape` payload built by `apply_transparency`: same
ID and bounds, records copied from the original, fill styles replaced by two
fully transparent solids, line styles emptied, `edge_bounds` cleared and all
three shape flags set to `false`. -/
def transparentShapeTag (d : DefineShapeT) : DefineShapeT :=
  { id := d.id
    bounds := d.bounds
    edgeBounds := none
    hasFillWinding := false
    hasNonScalingStrokes := false
    hasScalingStrokes := false
    shape := { initialStyles := { fill := [zeroSolidFill, zeroSolidFill], line := [] }
               records := d.shape.records } }

/-- The inner loop of `apply_transparency`: replace the first `DefineShape`
tag with the given ID (the loop breaks after the first match). -/
def replaceFirstShapeTag : List Tag → Nat → List Tag
  | [], _ => []
  | .defineShape d :: ts, sid =>
      if d.id = sid then .defineShape (transparentShapeTag d) :: ts
      else .defineShape d :: replaceFirstShapeTag ts sid
  | t :: ts, sid => t :: replaceFirstShapeTag ts sid

/-- The transparency converter `apply_transparency`: raise the format version
to 8 when below, then rewrite the first matching shape tag for each target
ID in order. -/
def applyTransparency (m : Movie) (shapeIds : List Nat) : Movie :=
  let m1 := if m.header.swfVersion < 8 then
              { m with header := { m.header with swfVersion := 8 } }
            else m
  shapeIds.foldl (fun mv sid => { mv with tags := replaceFirstShapeTag mv.tags sid }) m1

/-- Finds the first `DefineShape` payload in a tag list. -/
def firstShapeTag : List Tag → Option DefineShapeT
  | [] => none
  | .defineShape d :: _ => some d
  | _ :: ts => firstShapeTag ts

/-- A decoded override value of a tag-modification entry.  The source carries
`serde_json::Value`s and decodes each into the matched field's expected type;
here a value is one of the possible decoded shapes, and decoding succeeds
exactly when the shape matches the field. -/
inductive PVal where
  | bytes (b : List Nat)
  | intRecords (rs : List Int)
  | shapeV (s : Shape)
  | shapeRecords (rs : List ShapeRecord)
  | stylesV (s : ShapeStyles)
  | fillsV (f : List FillStyle)
  | linesV (l : List LineStyle)
  | rectV (r : Rect)
  | strV (s : String)
  | optStrV (s : Option String)
  | matrixV (m : MatrixM)
  | ctV (c : ColorTransformM)
  | natV (n : Nat)
  | boolV (b : Bool)
  | rgbaV (c : StraightSRgba8)
  | symbolsV (xs : List NamedId)
  | scenesV (xs : List Scene)
  | labelsV (xs : List LabelEntry)
  | tagsV (ts : List Tag)
  | morphV (v : Int)

/-- A field-level tag-modification entry (`TagModification` in the source):
tag-kind string, numeric ID, and the property bag. -/
structure TagModification where
  tag : String
  id : Nat
  properties : List (String × PVal)

/-- Property lookup (`modification.properties.get(name)`). -/
def getProp (props : List (String × PVal)) (k : String) : Option PVal :=
  (props.find? (fun p => p.1 == k)).map (fun p => p.2)

/-- Decoder for raw byte payloads. -/
def PVal.asBytes : PVal → Option (List Nat)
  | .bytes b => some b
  | _ => none

/-- Decoder for button/text record payloads. -/
def PVal.asIntRecords : PVal → Option (List Int)
  | .intRecords rs => some rs
  | _ => none

/-- Decoder for a whole shape. -/
def PVal.asShape : PVal → Option Shape
  | .shapeV s => some s
  | _ => none

/-- Decoder for a shape-record list. -/
def PVal.asShapeRecords : PVal → Option (List ShapeRecord)
  | .shapeRecords rs => some rs
  | _ => none

/-- Decoder for a whole style table. -/
def PVal.asStyles : PVal → Option ShapeStyles
  | .stylesV s => some s
  | _ => none

/-- Decoder for a fill-style list. -/
def PVal.asFills : PVal → Option (List FillStyle)
  | .fillsV f => some f
  | _ => none

/-- Decoder for a line-style list. -/
def PVal.asLines : PVal → Option (List LineStyle)
  | .linesV l => some l
  | _ => none

/-- Decoder for a rectangle. -/
def PVal.asRect : PVal → Option Rect
  | .rectV r => some r
  | _ => none

/-- Decoder for a string. -/
def PVal.asStr : PVal → Option String
  | .strV s => some s
  | _ => none

/-- Decoder for an optional string. -/
def PVal.asOptStr : PVal → Option (Option String)
  | .optStrV s => some s
  | _ => none

/-- Decoder for a matrix payload. -/
def PVal.asMatrix : PVal → Option MatrixM
  | .matrixV m => some m
  | _ => none

/-- Decoder for a colour-transform payload. -/
def PVal.asCT : PVal → Option ColorTransformM
  | .ctV c => some c
  | _ => none

/-- Decoder for a number. -/
def PVal.asNat : PVal → Option Nat
  | .natV n => some n
  | _ => none

/-- Decoder for a boolean (`as_bool()`). -/
def PVal.asBool : PVal → Option Bool
  | .boolV b => some b
  | _ => none

/-- Decoder for an RGBA colour. -/
def PVal.asRgba : PVal → Option StraightSRgba8
  | .rgbaV c => some c
  | _ => none

/-- Decoder for a symbol-binding list. -/
def PVal.asSymbols : PVal → Option (List NamedId)
  | .symbolsV xs => some xs
  | _ => none

/-- Decoder for a scene list. -/
def PVal.asScenes : PVal → Option (List Scene)
  | .scenesV xs => some xs
  | _ => none

/-- Decoder for a label list. -/
def PVal.asLabels : PVal → Option (List LabelEntry)
  | .labelsV xs => some xs
  | _ => none

/-- Decoder for a nested tag list. -/
def PVal.asTags : PVal → Option (List Tag)
  | .tagsV ts => some ts
  | _ => none

/-- Decoder for a morph-shape payload. -/
def PVal.asMorph : PVal → Option Int
  | .morphV v => some v
  | _ => none

/-- Applies an optional single-field override: absent key leaves the value,
present key decodes (failing with the arm's error message) and updates. -/
def applyField {α β : Type} (props : List (String × PVal)) (key : String)
    (dec : PVal → Option β) (errMsg : String) (upd : α → β → α) (a : α) :
    Except String α :=
  match getProp props key with
  | some v =>
      match dec v with
      | some b => Except.ok (upd a b)
      | none => Except.error errMsg
  | none => Except.ok a

/-- The match guard of `apply_tag_modification`, arm for arm: definition
kinds require the kind string and the character ID to match; control kinds
match on the kind string alone. -/
def tagMatches (md : TagModification) : Tag → Bool
  | .defineShape d => decide (md.tag = "DefineShapeTag" ∧ d.id = md.id)
  | .defineSprite id _ _ => decide (md.tag = "DefineSpriteTag" ∧ id = md.id)
  | .defineText id _ => decide (md.tag = "DefineTextTag" ∧ id = md.id)
  | .defineDynamicText dt => decide (md.tag = "DefineDynamicTextTag" ∧ dt.id = md.id)
  | .defineButton id _ => decide (md.tag = "DefineButtonTag" ∧ id = md.id)
  | .defineBitmap id _ _ _ => decide (md.tag = "DefineBitmapTag" ∧ id = md.id)
  | .defineMorphShape id _ => decide (md.tag = "DefineMorphShapeTag" ∧ id = md.id)
  | .defineBinaryData id _ => decide (md.tag = "DefineBinaryDataTag" ∧ id = md.id)
  | .defineButtonColorTransform bid _ => decide (md.tag = "DefineButtonColorTransformTag" ∧ bid = md.id)
  | .defineSceneAndFrameLabelData _ _ => decide (md.tag = "DefineSceneAndFrameLabelDataTag")
  | .placeObject _ _ _ _ => decide (md.tag = "PlaceObjectTag")
  | .removeObject _ _ => decide (md.tag = "RemoveObjectTag")
  | .frameLabel _ => decide (md.tag = "FrameLabelTag")
  | .setBackgroundColor _ => decide (md.tag = "SetBackgroundColorTag")
  | .symbolClass _ => decide (md.tag = "SymbolClassTag")
  | .doAbc _ => decide (md.tag = "DoAbcTag")
  | .doAction _ => decide (md.tag = "DoActionTag")
  | .fileAttributes _ _ _ _ => decide (md.tag = "FileAttributesTag")

/-- One iteration of the tag loop of `apply_tag_modification`: the tag is
mutated when its arm matches (kind string plus, for definition kinds, the
ID), otherwise left alone.  Decode failures abort with the arm's error
message.  The shape arm is nested exactly as in the source: a whole-shape
override wins, otherwise bounds / records / whole-style-table overrides
apply, with the fill/line lists only consulted when no whole table is
given. -/
def applyModToTag (md : TagModification) (t : Tag) : Except String Tag :=
  match t with
  | .defineBinaryData id data =>
      if md.tag = "DefineBinaryDataTag" ∧ id = md.id then
        applyField md.properties "data" PVal.asBytes "Failed to parse binary data"
          (fun _ b => Tag.defineBinaryData id b) (Tag.defineBinaryData id data)
      else Except.ok (.defineBinaryData id data)
  | .defineBitmap id w hgt data =>
      if md.tag = "DefineBitmapTag" ∧ id = md.id then
        applyField md.properties "data" PVal.asBytes "Failed to parse bitmap data"
          (fun _ b => Tag.defineBitmap id w hgt b) (Tag.defineBitmap id w hgt data)
      else Except.ok (.defineBitmap id w hgt data)
  | .defineButton id recs =>
      if md.tag = "DefineButtonTag" ∧ id = md.id then
        applyField md.properties "records" PVal.asIntRecords "Failed to parse button records"
          (fun _ rs => Tag.defineButton id rs) (Tag.defineButton id recs)
      else Except.ok (.defineButton id recs)
  | .defineButtonColorTransform bid tr =>
      if md.tag = "DefineButtonColorTransformTag" ∧ bid = md.id then
        applyField md.properties "transform" PVal.asCT "Failed to parse color transform"
          (fun _ c => Tag.defineButtonColorTransform bid c) (Tag.defineButtonColorTransform bid tr)
      else Except.ok (.defineButtonColorTransform bid tr)
  | .defineDynamicText dt =>
      if md.tag = "DefineDynamicTextTag" ∧ dt.id = md.id then
        applyField md.properties "text" PVal.asOptStr "Failed to parse dynamic text"
          (fun _ s => Tag.defineDynamicText { dt with text := s }) (Tag.defineDynamicText dt)
      else Except.ok (.defineDynamicText dt)
  | .defineMorphShape id sh =>
      if md.tag = "DefineMorphShapeTag" ∧ id = md.id then
        applyField md.properties "shape" PVal.asMorph "Failed to parse morph shape"
          (fun _ v => Tag.defineMorphShape id v) (Tag.defineMorphShape id sh)
      else Except.ok (.defineMorphShape id sh)
  | .defineShape d =>
      if md.tag = "DefineShapeTag" ∧ d.id = md.id then
        match getProp md.properties "shape" with
        | some v =>
            match v.asShape with
            | some s => Except.ok (.defineShape { d with shape := s })
            | none => Except.error "Failed to parse shape"
        | none => do
            let d ← applyField md.properties "bounds" PVal.asRect "Failed to parse shape bounds"
              (fun (d : DefineShapeT) r => { d with bounds := r }) d
            let d ← applyField md.properties "records" PVal.asShapeRecords "Failed to parse shape records"
              (fun (d : DefineShapeT) rs => { d with shape := { d.shape with records := rs } }) d
            let d ← (match getProp md.properties "styles" with
              | some v =>
                  match v.asStyles with
                  | some st => Except.ok { d with shape := { d.shape with initialStyles := st } }
                  | none => Except.error "Failed to parse shape styles"
              | none => do
                  let d ← applyField md.properties "fillStyles" PVal.asFills "Failed to parse fill styles"
                    (fun (d : DefineShapeT) f =>
                      { d with shape := { d.shape with initialStyles := { d.shape.initialStyles with fill := f } } }) d
                  let d ← applyField md.properties "lineStyles" PVal.asLines "Failed to parse line styles"
                    (fun (d : DefineShapeT) l =>
                      { d with shape := { d.shape with initialStyles := { d.shape.initialStyles with line := l } } }) d
                  Except.ok d)
            Except.ok (.defineShape d)
      else Except.ok (.defineShape d)
  | .defineSprite id fc ts =>
      if md.tag = "DefineSpriteTag" ∧ id = md.id then
        applyField md.properties "tags" PVal.asTags "Failed to parse sprite tags"
          (fun _ ts2 => Tag.defineSprite id fc ts2) (Tag.defineSprite id fc ts)
      else Except.ok (.defineSprite id fc ts)
  | .defineText id recs =>
      if md.tag = "DefineTextTag" ∧ id = md.id then
        applyField md.properties "records" PVal.asIntRecords "Failed to parse text records"
          (fun _ rs => Tag.defineText id rs) (Tag.defineText id recs)
      else Except.ok (.defineText id recs)
  | .doAbc data =>
      if md.tag = "DoAbcTag" then
        applyField md.properties "data" PVal.asBytes "Failed to parse ABC data"
          (fun _ b => Tag.doAbc b) (Tag.doAbc data)
      else Except.ok (.doAbc data)
  | .doAction acts =>
      if md.tag = "DoActionTag" then
        applyField md.properties "actions" PVal.asBytes "Failed to parse actions"
          (fun _ b => Tag.doAction b) (Tag.doAction acts)
      else Except.ok (.doAction acts)
  | .fileAttributes a b c dd =>
      if md.tag = "FileAttributesTag" then
        let a1 := match getProp md.properties "actionScript3" with
                  | some v => (v.asBool).getD false
                  | none => a
        let b1 := match getProp md.properties "hasMetadata" with
                  | some v => (v.asBool).getD false
                  | none => b
        let c1 := match getProp md.properties "useNetwork" with
                  | some v => (v.asBool).getD false
                  | none => c
        let d1 := match getProp md.properties "useGPU" with
                  | some v => (v.asBool).getD false
                  | none => dd
        Except.ok (.fileAttributes a1 b1 c1 d1)
      else Except.ok (.fileAttributes a b c dd)
  | .frameLabel name =>
      if md.tag = "FrameLabelTag" then
        applyField md.properties "name" PVal.asStr "Failed to parse frame label"
          (fun _ n => Tag.frameLabel n) (Tag.frameLabel name)
      else Except.ok (.frameLabel name)
  | .placeObject cid dp mx ct =>
      if md.tag = "PlaceObjectTag" then do
        let mx ← (match getProp md.properties "matrix" with
          | some v =>
              match v.asMatrix with
              | some mm => Except.ok (some mm)
              | none => Except.error "Failed to parse matrix"
          | none => Except.ok mx)
        let ct ← (match getProp md.properties "colorTransform" with
          | some v =>
              match v.asCT with
              | some cc => Except.ok (some cc)
              | none => Except.error "Failed to parse color transform"
          | none => Except.ok ct)
        Except.ok (.placeObject cid dp mx ct)
      else Except.ok (.placeObject cid dp mx ct)
  | .removeObject dp cid =>
      if md.tag = "RemoveObjectTag" then
        applyField md.properties "depth" PVal.asNat "Failed to parse depth"
          (fun _ n => Tag.removeObject n cid) (Tag.removeObject dp cid)
      else Except.ok (.removeObject dp cid)
  | .setBackgroundColor c =>
      if md.tag = "SetBackgroundColorTag" then
        match getProp md.properties "backgroundColor" with
        | some v =>
            match v.asRgba with
            | some rgba => Except.ok (.setBackgroundColor { r := rgba.r, g := rgba.g, b := rgba.b })
            | none => Except.error "Failed to parse color"
        | none => Except.ok (.setBackgroundColor c)
      else Except.ok (.setBackgroundColor c)
  | .symbolClass syms =>
      if md.tag = "SymbolClassTag" then
        applyField md.properties "symbols" PVal.asSymbols "Failed to parse symbols"
          (fun _ xs => Tag.symbolClass xs) (Tag.symbolClass syms)
      else Except.ok (.symbolClass syms)
  | .defineSceneAndFrameLabelData scs lbls =>
      if md.tag = "DefineSceneAndFrameLabelDataTag" then do
        let scs ← (match getProp md.properties "scenes" with
          | some v =>
              match v.asScenes with
              | some xs => Except.ok xs
              | none => Except.error "Failed to parse scenes"
          | none => Except.ok scs)
        let lbls ← (match getProp md.properties "labels" with
          | some v =>
              match v.asLabels with
              | some xs => Except.ok xs
              | none => Except.error "Failed to parse labels"
          | none => Except.ok lbls)
        Except.ok (.defineSceneAndFrameLabelData scs lbls)
      else Except.ok (.defineSceneAndFrameLabelData scs lbls)

/-- The tag loop of `apply_tag_modification` over the whole list: every tag
is visited in order (there is no early exit after a match), and the first
decode failure aborts. -/
def applyModList (md : TagModification) : List Tag → Except String (List Tag)
  | [] => Except.ok []
  | t :: ts =>
      match applyModToTag md t with
      | Except.error e => Except.error e
      | Except.ok t2 =>
          match applyModList md ts with
          | Except.error e => Except.error e
          | Except.ok ts2 => Except.ok (t2 :: ts2)

/-- The tag-patch-engine entry point `apply_tag_modification`. -/
def applyTagModification (m : Movie) (md : TagModification) : Except String Movie :=
  match applyModList md m.tags with
  | Except.error e => Except.error e
  | Except.ok ts => Except.ok { m with tags := ts }

/-- A tag is untouched by the given removal sets: it survives both retain
passes, carries no scene matching a removed scene name, and (for sprites) no
timeline entry is dropped. -/
def tagUntouched (s : RemovalSets) : Tag → Bool
  | .placeObject cid dp mx ct => keepRef s (.placeObject cid dp mx ct)
  | .frameLabel n => keepRef s (.frameLabel n)
  | .defineShape d => keepDef s (.defineShape d)
  | .defineText id rs => keepDef s (.defineText id rs)
  | .defineDynamicText dt => keepDef s (.defineDynamicText dt)
  | .defineButton id rs => keepDef s (.defineButton id rs)
  | .defineBitmap id w hgt data => keepDef s (.defineBitmap id w hgt data)
  | .defineSprite id fc ts => keepDef s (.defineSprite id fc ts) && ts.all (keepRef s)
  | .defineSceneAndFrameLabelData scs lbls =>
      keepDef s (.defineSceneAndFrameLabelData scs lbls) &&
        scs.all (fun sc => !(s.sceneNames.contains sc.name))
  | _ => true

/-- A tag is not a placement lacking a character reference. -/
def notPlaceless : Tag → Bool
  | .placeObject none _ _ _ => false
  | _ => true

/-- No placement lacking a character reference remains, neither as the tag
itself nor directly on a sprite timeline. -/
def placelessGone (t : Tag) : Bool :=
  notPlaceless t &&
    (match t with
     | .defineSprite _ _ ts => ts.all notPlaceless
     | _ => true)

/-- A tag and, when it is a sprite, every tag directly on its timeline is free
of direct references to removed elements. -/
def noDirectRefs (s : RemovalSets) (t : Tag) : Bool :=
  !(directRef s t) &&
    (match t with
     | .defineSprite _ _ ts => ts.all (fun u => !(directRef s u))
     | _ => true)

/-- The degenerate rectangle. -/
def zeroRect : Rect := { xMin := 0, xMax := 0, yMin := 0, yMax := 0 }

/-- A shape with empty styles and no records. -/
def emptyShape : Shape := { initialStyles := { fill := [], line := [] }, records := [] }

/-- A minimal `DefineShape` payload with the given ID. -/
def sampleShapeT (id : Nat) : DefineShapeT :=
  { id := id, bounds := zeroRect, edgeBounds := none, hasFillWinding := false
    hasNonScalingStrokes := false, hasScalingStrokes := false, shape := emptyShape }

/-- A minimal movie header. -/
def baseHeader : Header := { swfVersion := 6, frameSize := zeroRect }

/-- Document with two frame labels, used to show a control-kind modification
entry touches every matching tag, not just the first. -/
def c2Movie : Movie :=
  { header := baseHeader, tags := [Tag.frameLabel "a", Tag.frameLabel "b"] }

/-- Frame-label rename entry used against `c2Movie`. -/
def c2Mod : TagModification :=
  { tag := "FrameLabelTag", id := 0, properties := [("name", PVal.strV "X")] }

/-- The result of applying `c2Mod` to `c2Movie`: both labels renamed. -/
def c2Result : Movie :=
  { header := baseHeader, tags := [Tag.frameLabel "X", Tag.frameLabel "X"] }

/-- Document with a single bytecode tag, used for the missing-ID witnesses:
nothing in it matches shape ID 9. -/
def c3Movie : Movie :=
  { header := baseHeader, tags := [Tag.doAbc [1, 2]] }

/-- Shape modification entry targeting the absent ID 9. -/
def c3Mod : TagModification :=
  { tag := "DefineShapeTag", id := 9, properties := [] }

/-- Removal directive targeting the absent shape ID 9. -/
def c3Remove : RemoveElements :=
  { shapes := some [9], sprites := none, texts := none, buttons := none,
    bitmaps := none, frames := none, scenes := none }

/-- Document whose only definition tag is a binary-data definition with
character ID 5, which the ID allocator does not scan. -/
def c5BinMovie : Movie :=
  { header := baseHeader, tags := [Tag.defineBinaryData 5 []] }

/-- Document with one shape definition (ID 3) for the allocation witness. -/
def c5Movie : Movie :=
  { header := baseHeader, tags := [Tag.defineShape (sampleShapeT 3)] }

/-- A shape definition whose `edge_bounds` and all three flags are set, used
to show the transparency converter resets rather than preserves them. -/
def c7ShapeT : DefineShapeT :=
  { id := 1, bounds := { xMin := 0, xMax := 10, yMin := 0, yMax := 10 }
    edgeBounds := some { xMin := 0, xMax := 10, yMin := 0, yMax := 10 }
    hasFillWinding := true, hasNonScalingStrokes := true, hasScalingStrokes := true
    shape := emptyShape }

/-- Document holding `c7ShapeT`, already at an alpha-capable version. -/
def c7Movie : Movie :=
  { header := { swfVersion := 10, frameSize := zeroRect }, tags := [Tag.defineShape c7ShapeT] }

/-- Geometry state whose record list starts with a move-to to the origin and
whose pen sits exactly on that point: distance zero, well within one pixel. -/
def c4State : GeomState :=
  { records := [ShapeRecord.styleChange
      { moveTo := some { x := 0, y := 0 }, leftFill := none, rightFill := none
        lineStyle := none, newStyles := none }]
    pos := { x := 0, y := 0 }, lastCtrl := none }

/-- Document used to refute the any-depth form of claim C1: a sprite nested
inside another sprite carries a placement referencing character 7. -/
def c1Movie : Movie :=
  { header := { swfVersion := 6, frameSize := { xMin := 0, xMax := 0, yMin := 0, yMax := 0 } }
    tags := [Tag.defineSprite 1 1 [Tag.defineSprite 2 1 [Tag.placeObject (some 7) 0 none none]]] }

/-- Removal directive used to refute the any-depth form of claim C1. -/
def c1Remove : RemoveElements :=
  { shapes := some [7], sprites := none, texts := none, buttons := none,
    bitmaps := none, frames := none, scenes := none }

/-- Document used for the C10 witness: placements without a character
reference sit at the top level and on a sprite timeline. -/
def c10Movie : Movie :=
  { header := { swfVersion := 6, frameSize := { xMin := 0, xMax := 0, yMin := 0, yMax := 0 } }
    tags := [Tag.placeObject none 0 none none,
             Tag.defineSprite 3 1 [Tag.placeObject none 1 none none],
             Tag.defineShape { id := 4, bounds := { xMin := 0, xMax := 0, yMin := 0, yMax := 0 },
                               edgeBounds := none, hasFillWinding := false,
                               hasNonScalingStrokes := false, hasScalingStrokes := false,
                               shape := { initialStyles := { fill := [], line := [] }, records := [] } }] }

/-- Removal directive used for the C10 witness: remove shape ID 0. -/
def c10Remove : RemoveElements :=
  { shapes := some [0], sprites := none, texts := none, buttons := none,
    bitmaps := none, frames := none, scenes := none }

section RemovalLemmas

variable {α : Type}

theorem list_map_eq_self_of {f : α → α} {l : List α} (h : ∀ a ∈ l, f a = a) :
    l.map f = l := by
  induction l with
  | nil => rfl
  | cons x xs ih =>
      simp only [List.map_cons]
      rw [h x (List.mem_cons_self x xs), ih (fun a ha => h a (List.mem_cons_of_mem x ha))]

theorem list_filter_self_idem (p : α → Bool) (l : List α) :
    (l.filter p).filter p = l.filter p := by
  rw [List.filter_filter]
  simp

theorem list_all_of_filter (p : α → Bool) (l : List α) :
    (l.filter p).all p = true := by
  rw [List.all_eq_true]
  intro x hx
  exact List.of_mem_filter hx

theorem keepRef_updateSceneTag (s : RemovalSets) (t : Tag) :
    keepRef s (updateSceneTag s t) = keepRef s t := by
  cases t <;> rfl

theorem keepRef_cleanSprite (s : RemovalSets) (t : Tag) :
    keepRef s (cleanSprite s t) = keepRef s t := by
  cases t <;> rfl

theorem keepDef_updateSceneTag (s : RemovalSets) (t : Tag) :
    keepDef s (updateSceneTag s t) = keepDef s t := by
  cases t with
  | defineSceneAndFrameLabelData scs lbls =>
      simp only [updateSceneTag, keepDef, list_filter_self_idem]
  | _ => rfl

theorem keepDef_cleanSprite (s : RemovalSets) (t : Tag) :
    keepDef s (cleanSprite s t) = keepDef s t := by
  cases t <;> rfl

theorem cleanSprite_idem (s : RemovalSets) (t : Tag) :
    cleanSprite s (cleanSprite s t) = cleanSprite s t := by
  cases t with
  | defineSprite id fc ts => simp only [cleanSprite, list_filter_self_idem]
  | _ => rfl

theorem updateSceneTag_idem (s : RemovalSets) (t : Tag) :
    updateSceneTag s (updateSceneTag s t) = updateSceneTag s t := by
  cases t with
  | defineSceneAndFrameLabelData scs lbls =>
      simp only [updateSceneTag, list_filter_self_idem]
  | _ => rfl

theorem updateSceneTag_cleanSprite_comm (s : RemovalSets) (t : Tag) :
    updateSceneTag s (cleanSprite s t) = cleanSprite s (updateSceneTag s t) := by
  cases t <;> rfl

theorem checkClean_cleanSprite (s : RemovalSets) {t : Tag}
    (h : keepRef s t = true) : checkClean s (cleanSprite s t) = true := by
  cases t with
  | defineSprite id fc ts =>
      simp only [cleanSprite, checkClean, keepRef, Bool.true_and]
      exact list_all_of_filter (keepRef s) ts
  | _ =>
      simp only [cleanSprite, checkClean, Bool.and_eq_true]
      exact ⟨h, by trivial⟩

/-- Every tag surviving `removeSwfElements` passes the reference filter, and
so does every tag directly on a surviving sprite timeline. -/
theorem removal_clean (m : Movie) (e : RemoveElements) :
    ((removeSwfElements m e).tags.all (checkClean e.toSets)) = true := by
  unfold removeSwfElements
  simp only [List.all_eq_true]
  intro t ht
  obtain ⟨w, hw, rfl⟩ := List.mem_map.mp ht
  have hkw : keepRef e.toSets w = true := by
    cases hse : (e.toSets).sceneNames.isEmpty with
    | true =>
        rw [if_pos hse] at hw
        exact (List.mem_filter.mp (List.mem_of_mem_filter hw)).2
    | false =>
        rw [hse] at hw
        simp only [Bool.false_eq_true, if_false] at hw
        obtain ⟨v, hv, rfl⟩ := List.mem_map.mp hw
        rw [keepRef_updateSceneTag]
        exact (List.mem_filter.mp (List.mem_of_mem_filter hv)).2
  exact checkClean_cleanSprite _ hkw

theorem removal_keepRef (m : Movie) (e : RemoveElements) :
    ∀ t ∈ (removeSwfElements m e).tags, keepRef e.toSets t = true := by
  have h := removal_clean m e
  rw [List.all_eq_true] at h
  intro t ht
  have hc := h t ht
  simp only [checkClean, Bool.and_eq_true] at hc
  exact hc.1

theorem removal_sprite_keepRef (m : Movie) (e : RemoveElements) :
    ∀ t ∈ (removeSwfElements m e).tags, ∀ id fc ts, t = .defineSprite id fc ts →
      ∀ u ∈ ts, keepRef e.toSets u = true := by
  have h := removal_clean m e
  rw [List.all_eq_true] at h
  intro t ht id fc ts hts u hu
  have hc := h t ht
  subst hts
  simp only [checkClean, Bool.and_eq_true, List.all_eq_true] at hc
  exact hc.2 u hu

theorem noDirectRefs_eq_checkClean (s : RemovalSets) (t : Tag) :
    noDirectRefs s t = checkClean s t := by
  cases t <;> simp [noDirectRefs, checkClean, directRef, Bool.not_not]

theorem mem_removal_tags {m : Movie} {e : RemoveElements} {t : Tag}
    (ht : t ∈ (removeSwfElements m e).tags) :
    ∃ w, t = cleanSprite e.toSets w ∧ keepDef e.toSets w = true ∧
      ((e.toSets).sceneNames.isEmpty = false → ∃ v, w = updateSceneTag e.toSets v) := by
  unfold removeSwfElements at ht
  obtain ⟨w, hw, rfl⟩ := List.mem_map.mp ht
  refine ⟨w, rfl, ?_, ?_⟩
  · cases hse : (e.toSets).sceneNames.isEmpty with
    | true =>
        rw [if_pos hse] at hw
        exact (List.mem_filter.mp hw).2
    | false =>
        rw [if_neg (by simp [hse])] at hw
        obtain ⟨v, hv, rfl⟩ := List.mem_map.mp hw
        rw [keepDef_updateSceneTag]
        exact (List.mem_filter.mp hv).2
  · intro hse
    rw [if_neg (by simp [hse])] at hw
    obtain ⟨v, hv, rfl⟩ := List.mem_map.mp hw
    exact ⟨v, rfl⟩

end RemovalLemmas

/-- Claim C1 (amended): after element removal, no placement or frame label at
the top level of the document, and none directly on a top-level sprite's
timeline, references a removed ID or name.  The code does not recurse into
sprites nested inside sprites, so the any-depth form of the claim fails; see
the counterexample. -/
theorem c1_removal_cleans_depth_le_one (m : Movie) (e : RemoveElements) :
    ((removeSwfElements m e).tags.all (noDirectRefs e.toSets)) = true := by
  have h := removal_clean m e
  rw [List.all_eq_true] at h ⊢
  intro t ht
  rw [noDirectRefs_eq_checkClean]
  exact h t ht

/-- Claim C1 (counterexample to the claim as stated): removing shape ID 7 from
a document whose only tag is a sprite containing a sprite containing a
placement of character 7 leaves that placement in the document, so a removed
ID is still referenced at nesting depth two. -/
theorem c1_nested_sprite_counterexample :
    movieRefsDeep c1Remove.toSets 5 (removeSwfElements c1Movie c1Remove) = true := by
  decide

/-- Claim C8: element removal is idempotent — removing the same ID/name sets
twice in a row produces the same document as removing them once. -/
theorem c8_removeSwfElements_idempotent (m : Movie) (e : RemoveElements) :
    removeSwfElements (removeSwfElements m e) e = removeSwfElements m e := by
  have hkr := removal_keepRef m e
  have hkd : ∀ t ∈ (removeSwfElements m e).tags, keepDef e.toSets t = true := by
    intro t ht
    obtain ⟨w, rfl, hdef, -⟩ := mem_removal_tags ht
    rw [keepDef_cleanSprite]
    exact hdef
  have hcs : ∀ t ∈ (removeSwfElements m e).tags, cleanSprite e.toSets t = t := by
    intro t ht
    obtain ⟨w, rfl, -, -⟩ := mem_removal_tags ht
    exact cleanSprite_idem _ _
  have hus : (e.toSets).sceneNames.isEmpty = false →
      ∀ t ∈ (removeSwfElements m e).tags, updateSceneTag e.toSets t = t := by
    intro hse t ht
    obtain ⟨w, rfl, -, hv⟩ := mem_removal_tags ht
    obtain ⟨v, rfl⟩ := hv hse
    rw [updateSceneTag_cleanSprite_comm, updateSceneTag_idem]
  have key : removeSwfElements (removeSwfElements m e) e =
      { header := (removeSwfElements m e).header
        tags := ((if (e.toSets).sceneNames.isEmpty then
                    ((removeSwfElements m e).tags.filter (keepRef e.toSets)).filter (keepDef e.toSets)
                  else
                    (((removeSwfElements m e).tags.filter (keepRef e.toSets)).filter (keepDef e.toSets)).map
                      (updateSceneTag e.toSets)).map (cleanSprite e.toSets)) } := rfl
  rw [key, List.filter_eq_self.mpr hkr, List.filter_eq_self.mpr hkd]
  cases hse : (e.toSets).sceneNames.isEmpty with
  | true =>
      rw [if_pos rfl, list_map_eq_self_of hcs]
  | false =>
      rw [if_neg (by simp), list_map_eq_self_of (hus hse), list_map_eq_self_of hcs]

theorem keepRef_placeless_false {s : RemovalSets}
    (h : (s.shapeIds.contains 0 || s.spriteIds.contains 0 || s.textIds.contains 0 ||
          s.buttonIds.contains 0 || s.bitmapIds.contains 0) = true)
    (d : Nat) (mx : Option MatrixM) (ct : Option ColorTransformM) :
    keepRef s (.placeObject none d mx ct) = false := by
  simp only [Bool.or_eq_true] at h
  rcases h with (((h1 | h1) | h1) | h1) | h1 <;> simp at h1 <;>
    simp [keepRef, Option.getD_none, h1]

/-- Claim C10: a placement without a character ID is treated as referencing
character 0 by the removal pass, so removing ID 0 under any of the five kinds
strips every placement lacking a character reference, both at the top level
and on the timelines of top-level sprites. -/
theorem c10_remove_id_zero_strips_placeless (m : Movie) (e : RemoveElements)
    (h : (e.toSets.shapeIds.contains 0 || e.toSets.spriteIds.contains 0 ||
          e.toSets.textIds.contains 0 || e.toSets.buttonIds.contains 0 ||
          e.toSets.bitmapIds.contains 0) = true) :
    (∀ d mx ct, keepRef e.toSets (.placeObject none d mx ct) =
        keepRef e.toSets (.placeObject (some 0) d mx ct)) ∧
      ((removeSwfElements m e).tags.all placelessGone) = true := by
  constructor
  · intro d mx ct
    rfl
  · rw [List.all_eq_true]
    intro t ht
    have h1 := removal_keepRef m e t ht
    have h2 := removal_sprite_keepRef m e t ht
    have key : ∀ u : Tag, keepRef e.toSets u = true → notPlaceless u = true := by
      intro u hu
      cases u with
      | placeObject cid dp mx ct =>
          cases cid with
          | none =>
              rw [keepRef_placeless_false h] at hu
              exact absurd hu (by simp)
          | some c => rfl
      | _ => rfl
    simp only [placelessGone, Bool.and_eq_true]
    cases t
    case defineSprite id fc ts =>
      refine ⟨key _ h1, ?_⟩
      simp only [List.all_eq_true]
      intro u hu
      exact key u (h2 id fc ts rfl u hu)
    all_goals exact ⟨key _ h1, rfl⟩

/-- Witness for claim C10 at a concrete document: with shape ID 0 removed,
the placements lacking a character reference disappear from the top level and
from the sprite timeline. -/
theorem c10_remove_id_zero_strips_placeless_witness :
    ((c10Remove.toSets.shapeIds.contains 0 || c10Remove.toSets.spriteIds.contains 0 ||
      c10Remove.toSets.textIds.contains 0 || c10Remove.toSets.buttonIds.contains 0 ||
      c10Remove.toSets.bitmapIds.contains 0) = true) ∧
    ((∀ d mx ct, keepRef c10Remove.toSets (.placeObject none d mx ct) =
        keepRef c10Remove.toSets (.placeObject (some 0) d mx ct)) ∧
      ((removeSwfElements c10Movie c10Remove).tags.all placelessGone) = true) :=
  ⟨by decide, c10_remove_id_zero_strips_placeless c10Movie c10Remove (by decide)⟩

theorem replaceFirstShapeTag_append (pre post : List Tag) (d : DefineShapeT)
    (hpre : ∀ t ∈ pre, isShapeWithId t d.id = false) :
    replaceFirstShapeTag (pre ++ Tag.defineShape d :: post) d.id =
      pre ++ Tag.defineShape (transparentShapeTag d) :: post := by
  induction pre with
  | nil => simp [replaceFirstShapeTag]
  | cons t ts ih =>
      have ht := hpre t (List.mem_cons_self t ts)
      have hrest : ∀ u ∈ ts, isShapeWithId u d.id = false :=
        fun u hu => hpre u (List.mem_cons_of_mem t hu)
      cases t with
      | defineShape d0 =>
          simp only [isShapeWithId, beq_eq_false_iff_ne, ne_eq] at ht
          simp only [List.cons_append, replaceFirstShapeTag, if_neg ht, List.append_eq, ih hrest]
      | _ => simp only [List.cons_append, replaceFirstShapeTag, List.append_eq, ih hrest]

theorem applyTransparency_tags_single (m : Movie) (sid : Nat) :
    (applyTransparency m [sid]).tags = replaceFirstShapeTag m.tags sid := by
  by_cases hv : m.header.swfVersion < 8 <;> simp [applyTransparency, hv]

/-- Claim C7 (amended): for each target shape ID, the transparency converter
replaces the first matching shape tag in place, keeping its ID, bounds and
records, replacing its fill styles by two fully-zero-alpha solids, and
emptying its line styles; but the `edge_bounds` field is cleared to `none`
and the three non-fill shape flags are reset to `false` rather than preserved
from the original tag. -/
theorem c7_transparency_resets_flags (m : Movie) (d : DefineShapeT) (pre post : List Tag)
    (hm : m.tags = pre ++ Tag.defineShape d :: post)
    (hpre : ∀ t ∈ pre, isShapeWithId t d.id = false) :
    (applyTransparency m [d.id]).tags = pre ++ Tag.defineShape (transparentShapeTag d) :: post ∧
    (transparentShapeTag d).id = d.id ∧
    (transparentShapeTag d).bounds = d.bounds ∧
    (transparentShapeTag d).shape.records = d.shape.records ∧
    (transparentShapeTag d).shape.initialStyles.fill = [zeroSolidFill, zeroSolidFill] ∧
    (transparentShapeTag d).shape.initialStyles.line = [] ∧
    (transparentShapeTag d).edgeBounds = none ∧
    (transparentShapeTag d).hasFillWinding = false ∧
    (transparentShapeTag d).hasNonScalingStrokes = false ∧
    (transparentShapeTag d).hasScalingStrokes = false := by
  refine ⟨?_, rfl, rfl, rfl, rfl, rfl, rfl, rfl, rfl, rfl⟩
  rw [applyTransparency_tags_single, hm, replaceFirstShapeTag_append pre post d hpre]

/-- Witness for claim C7 at a concrete document. -/
theorem c7_transparency_resets_flags_witness :
    (c7Movie.tags = [] ++ Tag.defineShape c7ShapeT :: []) ∧
    (∀ t ∈ ([] : List Tag), isShapeWithId t c7ShapeT.id = false) ∧
    ((applyTransparency c7Movie [c7ShapeT.id]).tags =
        [] ++ Tag.defineShape (transparentShapeTag c7ShapeT) :: [] ∧
      (transparentShapeTag c7ShapeT).id = c7ShapeT.id ∧
      (transparentShapeTag c7ShapeT).bounds = c7ShapeT.bounds ∧
      (transparentShapeTag c7ShapeT).shape.records = c7ShapeT.shape.records ∧
      (transparentShapeTag c7ShapeT).shape.initialStyles.fill = [zeroSolidFill, zeroSolidFill] ∧
      (transparentShapeTag c7ShapeT).shape.initialStyles.line = [] ∧
      (transparentShapeTag c7ShapeT).edgeBounds = none ∧
      (transparentShapeTag c7ShapeT).hasFillWinding = false ∧
      (transparentShapeTag c7ShapeT).hasNonScalingStrokes = false ∧
      (transparentShapeTag c7ShapeT).hasScalingStrokes = false) :=
  ⟨rfl, by simp, c7_transparency_resets_flags c7Movie c7ShapeT [] [] rfl (by simp)⟩

/-- Claim C7 is false as stated about the shape flags: the original tag has
`has_scaling_strokes = true`, and after the transparency conversion the flag
is `false`, so the non-fill shape flags are not preserved. -/
theorem c7_flags_not_preserved_counterexample :
    (firstShapeTag c7Movie.tags).map (fun d => d.hasScalingStrokes) = some true ∧
    (firstShapeTag (applyTransparency c7Movie [1]).tags).map (fun d => d.hasScalingStrokes) =
      some false := by
  decide

theorem applyModToTag_not_matching (md : TagModification) (t : Tag)
    (hm : tagMatches md t = false) : applyModToTag md t = Except.ok t := by
  cases t <;> simp only [tagMatches] at hm <;> simp only [applyModToTag] <;>
    rw [if_neg (of_decide_eq_false hm)]

theorem applyModList_forall2 (md : TagModification) :
    ∀ (ts ts2 : List Tag), applyModList md ts = Except.ok ts2 →
      List.Forall₂ (fun t2 t => t2 = t ∨ tagMatches md t = true) ts2 ts := by
  intro ts
  induction ts with
  | nil =>
      intro ts2 h
      simp only [applyModList] at h
      cases h
      exact List.Forall₂.nil
  | cons t ts ih =>
      intro ts2 h
      simp only [applyModList] at h
      cases h1 : applyModToTag md t with
      | error e =>
          rw [h1] at h
          cases h
      | ok t2 =>
          rw [h1] at h
          cases h2 : applyModList md ts with
          | error e =>
              rw [h2] at h
              cases h
          | ok ts3 =>
              rw [h2] at h
              cases h
              constructor
              · cases hmt : tagMatches md t with
                | true => exact Or.inr rfl
                | false =>
                    left
                    have hid := applyModToTag_not_matching md t hmt
                    rw [hid] at h1
                    cases h1
                    rfl
              · exact ih ts3 h2

/-- Claim C2 (amended): a tag-modification entry leaves every tag whose arm
does not match (kind string plus, for definition kinds, character ID)
unchanged, but it is applied to every matching tag in the list, not only the
first — the loop has no early exit, so several same-kind tags (for control
kinds, or definition kinds with duplicated IDs) are all modified. -/
theorem c2_modification_applies_to_every_match (m : Movie) (md : TagModification)
    (m2 : Movie) (h : applyTagModification m md = Except.ok m2) :
    List.Forall₂ (fun t2 t => t2 = t ∨ tagMatches md t = true) m2.tags m.tags := by
  unfold applyTagModification at h
  cases hres : applyModList md m.tags with
  | error e =>
      rw [hres] at h
      cases h
  | ok ts =>
      rw [hres] at h
      cases h
      exact applyModList_forall2 md m.tags ts hres

/-- Witness for claim C2 at a concrete document. -/
theorem c2_modification_applies_to_every_match_witness :
    applyTagModification c2Movie c2Mod = Except.ok c2Result ∧
    List.Forall₂ (fun t2 t => t2 = t ∨ tagMatches c2Mod t = true) c2Result.tags c2Movie.tags :=
  ⟨rfl, c2_modification_applies_to_every_match c2Movie c2Mod c2Result rfl⟩

/-- Claim C2 is false as stated: a FrameLabel rename entry is applied to both
frame-label tags of the document (the loop never breaks), not to the first
only — both labels end up renamed. -/
theorem c2_counterexample :
    c2Movie.tags = [Tag.frameLabel "a", Tag.frameLabel "b"] ∧
    applyTagModification c2Movie c2Mod = Except.ok c2Result ∧
    c2Result.tags = [Tag.frameLabel "X", Tag.frameLabel "X"] :=
  ⟨rfl, rfl, rfl⟩

theorem applyModList_id (md : TagModification) :
    ∀ ts, (∀ t ∈ ts, tagMatches md t = false) → applyModList md ts = Except.ok ts := by
  intro ts
  induction ts with
  | nil => intro _; rfl
  | cons t ts ih =>
      intro h
      have h1 := applyModToTag_not_matching md t (h t (List.mem_cons_self t ts))
      have h2 := ih (fun u hu => h u (List.mem_cons_of_mem t hu))
      simp only [applyModList, h1, h2]

theorem replaceFirstShapeTag_id (sid : Nat) :
    ∀ ts : List Tag, (∀ t ∈ ts, isShapeWithId t sid = false) →
      replaceFirstShapeTag ts sid = ts := by
  intro ts
  induction ts with
  | nil => intro _; rfl
  | cons t ts ih =>
      intro h
      have ht := h t (List.mem_cons_self t ts)
      have hrest := ih (fun u hu => h u (List.mem_cons_of_mem t hu))
      cases t with
      | defineShape d0 =>
          simp only [isShapeWithId, beq_eq_false_iff_ne, ne_eq] at ht
          simp only [replaceFirstShapeTag, if_neg ht, hrest]
      | _ => simp only [replaceFirstShapeTag, hrest]

theorem keepRef_of_untouched (s : RemovalSets) (t : Tag) (h : tagUntouched s t = true) :
    keepRef s t = true := by
  cases t
  case placeObject cid dp mx ct => exact h
  case frameLabel n => exact h
  all_goals rfl

theorem keepDef_of_untouched (s : RemovalSets) (t : Tag) (h : tagUntouched s t = true) :
    keepDef s t = true := by
  cases t
  case defineShape d => exact h
  case defineText id rs => exact h
  case defineDynamicText dt => exact h
  case defineButton id rs => exact h
  case defineBitmap id w hgt data => exact h
  case defineSprite id fc ts =>
    simp only [tagUntouched, Bool.and_eq_true] at h
    exact h.1
  case defineSceneAndFrameLabelData scs lbls =>
    simp only [tagUntouched, Bool.and_eq_true] at h
    exact h.1
  all_goals rfl

theorem updateSceneTag_of_untouched (s : RemovalSets) (t : Tag)
    (h : tagUntouched s t = true) : updateSceneTag s t = t := by
  cases t
  case defineSceneAndFrameLabelData scs lbls =>
    simp only [tagUntouched, Bool.and_eq_true, List.all_eq_true] at h
    simp only [updateSceneTag]
    congr 1
    exact List.filter_eq_self.mpr h.2
  all_goals rfl

theorem cleanSprite_of_untouched (s : RemovalSets) (t : Tag)
    (h : tagUntouched s t = true) : cleanSprite s t = t := by
  cases t
  case defineSprite id fc ts =>
    simp only [tagUntouched, Bool.and_eq_true, List.all_eq_true] at h
    simp only [cleanSprite]
    congr 1
    exact List.filter_eq_self.mpr h.2
  all_goals rfl

theorem removeSwfElements_id (m : Movie) (e : RemoveElements)
    (h : ∀ t ∈ m.tags, tagUntouched e.toSets t = true) :
    removeSwfElements m e = m := by
  have h1 : m.tags.filter (keepRef e.toSets) = m.tags :=
    List.filter_eq_self.mpr (fun t ht => keepRef_of_untouched _ t (h t ht))
  have h2 : m.tags.filter (keepDef e.toSets) = m.tags :=
    List.filter_eq_self.mpr (fun t ht => keepDef_of_untouched _ t (h t ht))
  have h3 : m.tags.map (updateSceneTag e.toSets) = m.tags :=
    list_map_eq_self_of (fun t ht => updateSceneTag_of_untouched _ t (h t ht))
  have h4 : m.tags.map (cleanSprite e.toSets) = m.tags :=
    list_map_eq_self_of (fun t ht => cleanSprite_of_untouched _ t (h t ht))
  show { header := m.header
         tags := List.map (cleanSprite e.toSets)
           (if (e.toSets).sceneNames.isEmpty = true then
              List.filter (keepDef e.toSets) (List.filter (keepRef e.toSets) m.tags)
            else
              List.map (updateSceneTag e.toSets)
                (List.filter (keepDef e.toSets) (List.filter (keepRef e.toSets) m.tags))) } = m
  rw [h1, h2]
  cases hse : (e.toSets).sceneNames.isEmpty with
  | true => rw [if_pos rfl, h4]
  | false => rw [if_neg (by simp), h3, h4]

theorem replaceShapeTags_none (sid : Nat) (ns : List Shape) :
    ∀ ts : List Tag, (∀ t ∈ ts, isShapeWithId t sid = false) →
      replaceShapeTags sid ns ts = none := by
  intro ts
  induction ts with
  | nil => intro _; rfl
  | cons t ts ih =>
      intro h
      have ht := h t (List.mem_cons_self t ts)
      have hrest := ih (fun u hu => h u (List.mem_cons_of_mem t hu))
      cases t with
      | defineShape d0 =>
          simp only [isShapeWithId, beq_eq_false_iff_ne, ne_eq] at ht
          simp [replaceShapeTags, if_neg ht, hrest]
      | _ => simp [replaceShapeTags, hrest]

/-- Claim C3 (amended): for field-level tag modifications and element
removal, targeting IDs/names that nothing in the document carries leaves the
document unchanged and is not an error; transparency conversion with a
missing target ID leaves the tag list unchanged and is not an error either,
but the document is not untouched — `apply_transparency` raises the format
version to 8 when below before any ID lookup, match or no match; and shape
replacement is the exception to silent skipping — `replace_shape_in_movie`
reports a missing target shape ID as an error. -/
theorem c3_missing_id_handling :
    (∀ (m : Movie) (md : TagModification), (∀ t ∈ m.tags, tagMatches md t = false) →
      applyTagModification m md = Except.ok m) ∧
    (∀ (m : Movie) (sid : Nat), (∀ t ∈ m.tags, isShapeWithId t sid = false) →
      applyTransparency m [sid] =
        { m with header := { m.header with
            swfVersion := if m.header.swfVersion < 8 then 8 else m.header.swfVersion } }) ∧
    (∀ (m : Movie) (e : RemoveElements), (∀ t ∈ m.tags, tagUntouched e.toSets t = true) →
      removeSwfElements m e = m) ∧
    (∀ (m : Movie) (sid : Nat) (ns : List Shape), (∀ t ∈ m.tags, isShapeWithId t sid = false) →
      replaceShapeInMovie m sid ns =
        Except.error ("Shape with ID " ++ toString sid ++ " not found")) := by
  refine ⟨?_, ?_, ?_, ?_⟩
  · intro m md h
    unfold applyTagModification
    rw [applyModList_id md m.tags h]
  · intro m sid h
    have ht := replaceFirstShapeTag_id sid m.tags h
    by_cases hv : m.header.swfVersion < 8 <;> simp [applyTransparency, hv, ht]
  · intro m e h
    exact removeSwfElements_id m e h
  · intro m sid ns h
    unfold replaceShapeInMovie
    rw [replaceShapeTags_none sid ns m.tags h]

/-- Witness for claim C3 at a concrete document containing only a bytecode
tag: tag modification and removal leave it untouched, transparency keeps its
tag list but raises the version from 6 to 8, and shape replacement errors. -/
theorem c3_missing_id_handling_witness :
    (∀ t ∈ c3Movie.tags, tagMatches c3Mod t = false) ∧
    applyTagModification c3Movie c3Mod = Except.ok c3Movie ∧
    (∀ t ∈ c3Movie.tags, isShapeWithId t 9 = false) ∧
    applyTransparency c3Movie [9] =
      { c3Movie with header := { c3Movie.header with
          swfVersion := if c3Movie.header.swfVersion < 8 then 8 else c3Movie.header.swfVersion } } ∧
    (∀ t ∈ c3Movie.tags, tagUntouched c3Remove.toSets t = true) ∧
    removeSwfElements c3Movie c3Remove = c3Movie ∧
    replaceShapeInMovie c3Movie 9 [] =
      Except.error ("Shape with ID " ++ toString 9 ++ " not found") :=
  ⟨by decide, c3_missing_id_handling.1 c3Movie c3Mod (by decide),
   by decide, c3_missing_id_handling.2.1 c3Movie 9 (by decide),
   by decide, c3_missing_id_handling.2.2.1 c3Movie c3Remove (by decide),
   c3_missing_id_handling.2.2.2 c3Movie 9 [] (by decide)⟩

/-- Claim C3 is false as stated on two counts, shown at one concrete
document: replacing a shape ID absent from the document is a reported error,
not a silent skip; and transparency conversion targeting an absent ID still
mutates the document, raising the format version from 6 to 8 even though no
tag matches. -/
theorem c3_counterexample :
    replaceShapeInMovie c3Movie 7 [] = Except.error "Shape with ID 7 not found" ∧
    c3Movie.header.swfVersion = 6 ∧
    (applyTransparency c3Movie [7]).header.swfVersion = 8 ∧
    (applyTransparency c3Movie [7]).tags = c3Movie.tags :=
  ⟨rfl, rfl, rfl, rfl⟩

theorem foldl_scanStep_eq (ts : List Tag) :
    ∀ acc, ts.foldl scanStep acc = (ts.filterMap scannedDefId).foldl max acc := by
  induction ts with
  | nil => intro acc; rfl
  | cons t ts ih =>
      intro acc
      cases t <;>
        simp only [List.foldl_cons, List.filterMap_cons, scanStep, scannedDefId] <;>
        exact ih _

/-- Claim C5 (amended): the allocator's next ID is one more than the maximum
character ID over the top-level definition tags of the scanned kinds — shape,
sprite, static/dynamic text, button, morph-shape and bitmap, but not
binary-data definitions — taken modulo 2^16 (the `u16` addition wraps);
and two allocations run in sequence, the first appending its shape definition
tag before the second runs, return different IDs whenever the scanned
maximum is below 65535. -/
theorem c5_id_allocation (m : Movie) :
    findNextAvailableId m = ((m.tags.filterMap scannedDefId).foldl max 0 + 1) % 65536 ∧
    (∀ d : DefineShapeT, maxScannedId m < 65535 →
      findNextAvailableId
          { m with tags := m.tags ++ [Tag.defineShape { d with id := findNextAvailableId m }] } ≠
        findNextAvailableId m) := by
  constructor
  · unfold findNextAvailableId maxScannedId
    rw [foldl_scanStep_eq]
  · intro d h
    have hfa : findNextAvailableId m = maxScannedId m + 1 := by
      unfold findNextAvailableId
      exact Nat.mod_eq_of_lt (by omega)
    rw [hfa]
    have hM : maxScannedId
        { m with tags := m.tags ++ [Tag.defineShape { d with id := maxScannedId m + 1 }] } =
        maxScannedId m + 1 := by
      unfold maxScannedId
      rw [List.foldl_append]
      show scanStep (m.tags.foldl scanStep 0) (Tag.defineShape { d with id := maxScannedId m + 1 }) = _
      simp only [scanStep]
      exact max_eq_right (Nat.le_succ _)
    unfold findNextAvailableId
    rw [hM]
    omega

/-- Witness for claim C5 at a concrete document with one shape definition of
ID 3: the first allocation yields 4, and after appending the new definition
the next allocation yields a different ID. -/
theorem c5_id_allocation_witness :
    maxScannedId c5Movie < 65535 ∧
    findNextAvailableId
        { c5Movie with
          tags := c5Movie.tags ++ [Tag.defineShape { sampleShapeT 3 with id := findNextAvailableId c5Movie }] } ≠
      findNextAvailableId c5Movie :=
  ⟨by decide, (c5_id_allocation c5Movie).2 (sampleShapeT 3) (by decide)⟩

/-- Claim C5 is false as stated: a document whose only definition tag is a
binary-data definition with character ID 5 has a maximum character ID of 5
over all definition tags, so the claim demands the next allocated ID be 6 —
but the allocator does not scan binary-data definitions and returns 1. -/
theorem c5_counterexample :
    findNextAvailableId c5BinMovie = 1 ∧ specMaxDefId c5BinMovie = 5 ∧
    findNextAvailableId c5BinMovie ≠ specMaxDefId c5BinMovie + 1 := by
  refine ⟨rfl, rfl, ?_⟩
  decide

/-- Claim C4 (amended): on a close-path command, when the first record of the
current shape's accumulated record list is a style change carrying a move-to,
exactly one straight edge (no control delta) is emitted, targeting the stored
fixed-point move-to coordinates reinterpreted as a raw point, and the pen
jumps there; in every other case nothing is emitted.  No within-one-pixel
proximity check exists in the code (see the counterexample). -/
theorem c4_closepath_behaviour (pt gt : Option TransformQ) (st : GeomState) :
    (∀ sc mv, st.records.head? = some (ShapeRecord.styleChange sc) → sc.moveTo = some mv →
      processSegment pt gt st PathSeg.closePath =
        { records := st.records ++ [straightEdge st.pos { x := (mv.x : ℚ), y := (mv.y : ℚ) }]
          pos := { x := (mv.x : ℚ), y := (mv.y : ℚ) }
          lastCtrl := none }) ∧
    ((match st.records.head? with
      | some (ShapeRecord.styleChange sc) => sc.moveTo.isNone
      | _ => true) = true →
      processSegment pt gt st PathSeg.closePath = { st with lastCtrl := none }) := by
  constructor
  · intro sc mv h1 h2
    simp only [processSegment, h1, h2]
  · intro hno
    cases hh : st.records.head? with
    | none => simp only [processSegment, hh]
    | some r =>
        cases r with
        | styleChange sc =>
            rw [hh] at hno
            simp only at hno
            cases hmv : sc.moveTo with
            | some mv =>
                rw [hmv] at hno
                simp at hno
            | none => simp only [processSegment, hh, hmv]
        | edge e => simp only [processSegment, hh]

/-- Witness for claim C4 at a concrete state whose first record is a move-to
to the origin. -/
theorem c4_closepath_behaviour_witness :
    (c4State.records.head? =
      some (ShapeRecord.styleChange
        { moveTo := some { x := 0, y := 0 }, leftFill := none, rightFill := none
          lineStyle := none, newStyles := none })) ∧
    processSegment none none c4State PathSeg.closePath =
      { records := c4State.records ++
          [straightEdge c4State.pos { x := (((0 : Int) : ℚ)), y := (((0 : Int) : ℚ)) }]
        pos := { x := (((0 : Int) : ℚ)), y := (((0 : Int) : ℚ)) }
        lastCtrl := none } :=
  ⟨by decide, (c4_closepath_behaviour none none c4State).1
    { moveTo := some { x := 0, y := 0 }, leftFill := none, rightFill := none
      lineStyle := none, newStyles := none }
    { x := 0, y := 0 } (by decide) rfl⟩

/-- Claim C4 is false as stated: with the pen exactly on the first move-to
point (distance zero, well within one device pixel), close-path still emits
an edge record — the claimed proximity no-op does not exist. -/
theorem c4_counterexample :
    c4State.pos = { x := 0, y := 0 } ∧
    c4State.records.head? =
      some (ShapeRecord.styleChange
        { moveTo := some { x := 0, y := 0 }, leftFill := none, rightFill := none
          lineStyle := none, newStyles := none }) ∧
    (processSegment none none c4State PathSeg.closePath).records.length =
      c4State.records.length + 1 := by
  refine ⟨rfl, by decide, by decide⟩

theorem processPath_fillIdx (K : RealKernel) (st : AccState) (p : PathElem) :
    (processPath K st p).fillIdx =
      st.fillIdx + (if p.data.isSome && p.fillColor.isSome then 1 else 0) := by
  cases hd : p.data with
  | none => simp [processPath, hd]
  | some segs =>
      cases hf : p.fillColor with
      | none => simp [processPath, hd, hf]
      | some c => simp [processPath, hd, hf]

theorem processPath_lineIdx (K : RealKernel) (st : AccState) (p : PathElem) :
    (processPath K st p).lineIdx =
      st.lineIdx + (if p.data.isSome && p.strokeColor.isSome then 1 else 0) := by
  cases hd : p.data with
  | none => simp [processPath, hd]
  | some segs =>
      cases hs : p.strokeColor with
      | none => simp [processPath, hd, hs]
      | some c => simp [processPath, hd, hs]

theorem foldl_processPath_fillIdx (K : RealKernel) (paths : List PathElem) :
    ∀ st : AccState, (paths.foldl (processPath K) st).fillIdx =
      st.fillIdx + (paths.filter (fun p => p.data.isSome && p.fillColor.isSome)).length := by
  induction paths with
  | nil => intro st; simp
  | cons p ps ih =>
      intro st
      simp only [List.foldl_cons, List.filter_cons]
      rw [ih, processPath_fillIdx]
      cases hc : (p.data.isSome && p.fillColor.isSome) <;> simp [hc] <;> omega

theorem foldl_processPath_lineIdx (K : RealKernel) (paths : List PathElem) :
    ∀ st : AccState, (paths.foldl (processPath K) st).lineIdx =
      st.lineIdx + (paths.filter (fun p => p.data.isSome && p.strokeColor.isSome)).length := by
  induction paths with
  | nil => intro st; simp
  | cons p ps ih =>
      intro st
      simp only [List.foldl_cons, List.filter_cons]
      rw [ih, processPath_lineIdx]
      cases hc : (p.data.isSome && p.strokeColor.isSome) <;> simp [hc] <;> omega

/-- Claim C9: the geometry compiler returns at most one shape — every path
element's records accumulate into the single shared shape, the returned list
is empty exactly when no path contributed a record, and the fill/line
style-table indices keep incrementing across paths (one slot per path with a
fill, resp. a stroke).  The statement quantifies over the transcendental
kernel, so it covers every source document including those with
elliptical-arc commands, whatever values the float trigonometry takes. -/
theorem c9_single_accumulated_shape (K : RealKernel) (paths : List PathElem) :
    (parseShapeSource K paths).length ≤ 1 ∧
    (parseShapeSource K paths).isEmpty =
      (paths.foldl (processPath K) { records := [], fillIdx := 0, lineIdx := 0 }).records.isEmpty ∧
    (paths.foldl (processPath K) { records := [], fillIdx := 0, lineIdx := 0 }).fillIdx =
      (paths.filter (fun p => p.data.isSome && p.fillColor.isSome)).length ∧
    (paths.foldl (processPath K) { records := [], fillIdx := 0, lineIdx := 0 }).lineIdx =
      (paths.filter (fun p => p.data.isSome && p.strokeColor.isSome)).length := by
  refine ⟨?_, ?_, ?_, ?_⟩
  · unfold parseShapeSource
    by_cases hr : (paths.foldl (processPath K)
        { records := [], fillIdx := 0, lineIdx := 0 }).records.isEmpty <;>
      simp [hr]
  · unfold parseShapeSource
    by_cases hr : (paths.foldl (processPath K)
        { records := [], fillIdx := 0, lineIdx := 0 }).records.isEmpty <;>
      simp [hr]
  · rw [foldl_processPath_fillIdx]
    simp
  · rw [foldl_processPath_lineIdx]
    simp

theorem clamp01_nonneg (q : ℚ) : 0 ≤ clamp01 q :=
  le_max_left 0 _

theorem clamp01_le_one (q : ℚ) : clamp01 q ≤ 1 :=
  max_le (by norm_num) (min_le_right q 1)

/-- Claim C6 (amended): the opacity mapping truncates (floors) rather than
rounds — alpha is the unique natural with
alpha ≤ clamp(opacity,0,1)·255 < alpha + 1; it never exceeds 255, and the
anchor points 0 ↦ 0, 1 ↦ 255 and 1.5 ↦ 255 hold as claimed. -/
theorem c6_opacity_mapping :
    (∀ q : ℚ, ((opacityToAlpha q : ℚ) ≤ clamp01 q * 255 ∧
        clamp01 q * 255 < (opacityToAlpha q : ℚ) + 1) ∧ opacityToAlpha q ≤ 255) ∧
    opacityToAlpha 0 = 0 ∧ opacityToAlpha 1 = 255 ∧ opacityToAlpha (3 / 2) = 255 := by
  refine ⟨?_, by norm_num [opacityToAlpha, clamp01] <;> decide,
    by norm_num [opacityToAlpha, clamp01] <;> decide, by norm_num [opacityToAlpha, clamp01] <;> decide⟩
  intro q
  have hc0 : (0 : ℚ) ≤ clamp01 q * 255 :=
    mul_nonneg (clamp01_nonneg q) (by norm_num)
  have hc255 : clamp01 q * 255 ≤ 255 := by
    calc clamp01 q * 255 ≤ 1 * 255 :=
          mul_le_mul_of_nonneg_right (clamp01_le_one q) (by norm_num)
      _ = 255 := by norm_num
  have hfl0 : 0 ≤ Int.floor (clamp01 q * 255) := Int.floor_nonneg.mpr hc0
  have key : ((opacityToAlpha q : ℚ)) = ((Int.floor (clamp01 q * 255) : ℚ)) := by
    unfold opacityToAlpha
    exact_mod_cast congrArg (fun z : ℤ => ((z : ℚ))) (Int.toNat_of_nonneg hfl0)
  refine ⟨⟨?_, ?_⟩, ?_⟩
  · rw [key]
    exact Int.floor_le _
  · rw [key]
    exact Int.lt_floor_add_one _
  · have h255 : Int.floor (clamp01 q * 255) ≤ 255 := by
      have := Int.floor_le_floor (α := ℚ) hc255
      simpa using this
    unfold opacityToAlpha
    exact Int.toNat_le.mpr h255

/-- Claim C6 is false as stated: the cast truncates rather than rounds — at
opacity 1/2 the code yields alpha 127 while
round(clamp(1/2,0,1)·255) = round(127.5) = 128. -/
theorem c6_counterexample :
    opacityToAlpha (1 / 2) = 127 ∧ round (clamp01 (1 / 2) * 255) = (128 : ℤ) ∧
    ((opacityToAlpha (1 / 2) : ℤ)) ≠ round (clamp01 (1 / 2) * 255) := by
  refine ⟨by norm_num [opacityToAlpha, clamp01] <;> decide, ?_, ?_⟩
  · norm_num [clamp01, round_eq]
  · norm_num [opacityToAlpha, clamp01, round_eq] <;> decide

end StarDelta
